import Mathlib

/-!
Verification of the grammarly-mcp optimization core (`src/grammarlyOptimizer.ts`).

This file gives a shallow embedding of the core logic of the repository:
the threshold evaluator `thresholdsMet`, the retry executor `withRetry`,
and the orchestrator `runGrammarlyOptimization`, together with theorems
about them.

Modelling conventions:
* JavaScript numbers used for percentages and backoff delays become `ℚ`.
* `number | null` fields become `Option ℚ`.
* A thrown JavaScript value becomes a `JSValue` (which can be `undefined`,
  `null`, a plain string, or an `Error` object carrying its message).
* An async operation that can reject becomes a function into
  `Except JSValue α`.  An operation that is called several times (for
  example by the retry executor, or by the orchestrator whose mock
  collaborators can answer differently on each call) is modelled as a
  function of the zero-based call index.
* The orchestrator's external collaborators (browser provider factory,
  session creation, scoring, the Claude rewrite/analyze/summarize clients,
  the optional progress callback) are collected in an `Env` record of
  oracles; the orchestrator threads an explicit `TraceState` recording the
  observable calls it makes (progress notifications, rewrite invocations,
  scoring invocations, session closes) so that theorems can speak about
  which collaborators were invoked and with which arguments.
* The `try ... finally` of `runGrammarlyOptimization` is modelled by
  running the body to an `Except` outcome together with its final
  (partial) state and then performing the cleanup step on that state.
-/

namespace GrammarlyMcp

/-- A JavaScript value as far as throwing/rejecting is concerned: the code
distinguishes `undefined`, `Error` instances, and arbitrary other values
(modelled here by `null` and plain strings). -/
inductive JSValue where
  | undefined
  | null
  | str (s : String)
  | errorObj (message : String)
  deriving DecidableEq, Repr

/-- `GrammarlyScores` from `grammarlyOptimizer.ts`: two nullable percentages. -/
structure GrammarlyScores where
  aiDetectionPercent : Option ℚ
  plagiarismPercent : Option ℚ
  deriving DecidableEq, Repr

/-- `GrammarlyScoreResult` extends `GrammarlyScores` only with an optional
`liveUrl` that the orchestrator never reads, so it is modelled by the same
record. -/
abbrev GrammarlyScoreResult := GrammarlyScores

/-- `thresholdsMet` from `grammarlyOptimizer.ts`.  Threshold policy: require
at least one available score to verify; any unavailable score is treated as
passing its respective threshold. -/
def thresholdsMet (scores : GrammarlyScores)
    (maxAiPercent maxPlagiarismPercent : ℚ) : Bool :=
  let aiAvailable := scores.aiDetectionPercent.isSome
  let plagiarismAvailable := scores.plagiarismPercent.isSome
  if !aiAvailable && !plagiarismAvailable then
    false
  else
    let aiOk :=
      match scores.aiDetectionPercent with
      | some v => decide (v ≤ maxAiPercent)
      | none => true
    let plagiarismOk :=
      match scores.plagiarismPercent with
      | some v => decide (v ≤ maxPlagiarismPercent)
      | none => true
    aiOk && plagiarismOk

/-- Decidable equality for `Except`, used so that concrete runs can be
checked by `decide`. -/
instance {ε α : Type} [DecidableEq ε] [DecidableEq α] :
    DecidableEq (Except ε α) := fun x y =>
  match x, y with
  | .ok a, .ok b =>
    if h : a = b then isTrue (by rw [h])
    else isFalse (by intro hc; cases hc; exact h rfl)
  | .ok _, .error _ => isFalse (by intro hc; cases hc)
  | .error _, .ok _ => isFalse (by intro hc; cases hc)
  | .error e, .error f =>
    if h : e = f then isTrue (by rw [h])
    else isFalse (by intro hc; cases hc; exact h rfl)

/-- Result of one run of the retry executor: the final outcome, the number
of times the wrapped operation was invoked, and the list of backoff delays
(in milliseconds) that were slept, in order. -/
structure RetryTrace (α : Type) where
  result : Except JSValue α
  attemptsMade : Nat
  delays : List ℚ
  deriving DecidableEq, Repr

/-- The post-loop rethrow logic of `withRetry`: a last error that is
literally `undefined` is replaced by a fresh `Error`, every other value is
rethrown unmodified. -/
def retryFinal (lastError : JSValue) : JSValue :=
  if lastError = JSValue.undefined then
    JSValue.errorObj "withRetry failed without error"
  else
    lastError

/-- The `for (attempt = 0; attempt <= maxRetries; attempt++)` loop of
`withRetry`, recursing on the number of attempts remaining after the
current one (`remaining = maxRetries - attempt`).  A failed attempt that is
not the last one sleeps `backoffMs * 2 ^ attempt` before the next try. -/
def withRetryGo {α : Type} (op : Nat → Except JSValue α) (backoffMs : ℚ) :
    (attempt remaining : Nat) → RetryTrace α
  | attempt, 0 =>
    match op attempt with
    | .ok v => ⟨.ok v, 1, []⟩
    | .error e => ⟨.error (retryFinal e), 1, []⟩
  | attempt, remaining + 1 =>
    match op attempt with
    | .ok v => ⟨.ok v, 1, []⟩
    | .error _ =>
      let rest := withRetryGo op backoffMs (attempt + 1) remaining
      ⟨rest.result, rest.attemptsMade + 1, backoffMs * 2 ^ attempt :: rest.delays⟩

/-- `withRetry` from `grammarlyOptimizer.ts` for a non-negative
`maxRetries` (the negative-`maxRetries` `RangeError` branch is
unrepresentable with `Nat`).  The `label` option is only logged and is
omitted.  The wrapped operation is modelled as a function of the call
index, so stateful operations (failing first, succeeding later) are
expressible. -/
def withRetry {α : Type} (op : Nat → Except JSValue α) (maxRetries : Nat)
    (backoffMs : ℚ) : RetryTrace α :=
  withRetryGo op backoffMs 0 maxRetries

/-- If the very first attempt succeeds, `withRetry` returns it immediately:
one invocation, no delays. -/
theorem withRetry_first_ok {α : Type} (op : Nat → Except JSValue α)
    (maxRetries : Nat) (backoffMs : ℚ) (v : α) (h : op 0 = Except.ok v) :
    withRetry op maxRetries backoffMs = ⟨Except.ok v, 1, []⟩ := by
  cases maxRetries <;> simp [withRetry, withRetryGo, h]

/-- Loop-level form of the eventual-success property: starting at attempt
`a` with `r` retries remaining, if attempts `a, a+1, …, a+r-1` fail and
attempt `a+r` succeeds, the trace is fully determined. -/
theorem withRetryGo_eventual_ok {α : Type} (op : Nat → Except JSValue α)
    (b : ℚ) (v : α) :
    ∀ r a, (∀ i, i < r → ∃ e, op (a + i) = Except.error e) →
      op (a + r) = Except.ok v →
      withRetryGo op b a r =
        ⟨Except.ok v, r + 1, (List.range r).map fun i => b * 2 ^ (a + i)⟩ := by
  intro r
  induction r with
  | zero =>
    intro a _ hok
    simp only [Nat.add_zero] at hok
    simp [withRetryGo, hok]
  | succ r ih =>
    intro a hfail hok
    obtain ⟨e, he⟩ := hfail 0 (Nat.succ_pos r)
    simp only [Nat.add_zero] at he
    have hrec := ih (a + 1)
      (fun i hi => by
        obtain ⟨e', he'⟩ := hfail (i + 1) (by omega)
        exact ⟨e', by rw [show a + 1 + i = a + (i + 1) by omega]; exact he'⟩)
      (by rw [show a + 1 + r = a + (r + 1) by omega]; exact hok)
    simp only [withRetryGo, he, hrec, RetryTrace.mk.injEq]
    refine ⟨trivial, trivial, ?_⟩
    rw [List.range_succ_eq_map, List.map_cons, List.map_map]
    refine List.cons_eq_cons.mpr ⟨by rw [Nat.add_zero], ?_⟩
    apply List.map_congr_left
    intro i _
    simp only [Function.comp_apply]
    congr 2
    omega

/-- Loop-level form of the all-attempts-fail property: if every attempt up
to and including the last one fails, the result is the rethrow of the last
error (after the `undefined` fix-up). -/
theorem withRetryGo_all_fail {α : Type} (op : Nat → Except JSValue α)
    (b : ℚ) :
    ∀ r a (e : JSValue), (∀ i, i < r → ∃ e', op (a + i) = Except.error e') →
      op (a + r) = Except.error e →
      (withRetryGo op b a r).result = Except.error (retryFinal e) := by
  intro r
  induction r with
  | zero =>
    intro a e _ hlast
    simp only [Nat.add_zero] at hlast
    simp [withRetryGo, hlast]
  | succ r ih =>
    intro a e hfail hlast
    obtain ⟨e', he'⟩ := hfail 0 (Nat.succ_pos r)
    simp only [Nat.add_zero] at he'
    have hrec := ih (a + 1) e
      (fun i hi => by
        obtain ⟨e'', he''⟩ := hfail (i + 1) (by omega)
        exact ⟨e'', by rw [show a + 1 + i = a + (i + 1) by omega]; exact he''⟩)
      (by rw [show a + 1 + r = a + (r + 1) by omega]; exact hlast)
    simp [withRetryGo, he', hrec]

/-- The three modes of `runGrammarlyOptimization`. -/
inductive Mode where
  | score_only
  | optimize
  | analyze
  deriving DecidableEq, Repr

/-- The tool-input fields consumed by the orchestrator (`response_format`
only affects the MCP layer's rendering and is omitted).  The input schema
enforces `1 ≤ max_iterations ≤ 20` before the orchestrator runs. -/
structure GrammarlyOptimizeInput where
  text : String
  mode : Mode
  max_ai_percent : ℚ
  max_plagiarism_percent : ℚ
  max_iterations : Nat
  tone : String
  domain_hint : Option String
  custom_instructions : Option String
  proxy_country_code : Option String
  max_steps : Option Nat
  deriving DecidableEq, Repr

/-- `HistoryEntry` from `grammarlyOptimizer.ts`. -/
structure HistoryEntry where
  iteration : Nat
  ai_detection_percent : Option ℚ
  plagiarism_percent : Option ℚ
  note : String
  deriving DecidableEq, Repr

/-- `GrammarlyOptimizeResult` from `grammarlyOptimizer.ts`.  The `provider`
field is optional in the TypeScript type but populated on every return
path of the orchestrator, so it is modelled as a plain `String`. -/
structure GrammarlyOptimizeResult where
  final_text : String
  ai_detection_percent : Option ℚ
  plagiarism_percent : Option ℚ
  iterations_used : Nat
  thresholds_met : Bool
  history : List HistoryEntry
  notes : String
  live_url : Option String
  provider : String
  deriving DecidableEq, Repr

/-- `SessionOptions` from `browser/provider.ts`. -/
structure SessionOptions where
  proxyCountryCode : Option String
  deriving DecidableEq, Repr

/-- `SessionResult` from `browser/provider.ts` (the optional `contextId`
is never read by the orchestrator and is omitted). -/
structure SessionResult where
  sessionId : String
  liveUrl : Option String
  deriving DecidableEq, Repr

/-- `ScoreOptions` from `browser/provider.ts` (`iteration` is optional
there but always supplied by the orchestrator). -/
structure ScoreOptions where
  maxSteps : Option Nat
  iteration : Nat
  mode : Mode
  flashMode : Bool
  deriving DecidableEq, Repr

/-- One invocation of `provider.scoreText`: its positional arguments plus
its options. -/
structure ScoreCall where
  sessionId : String
  text : String
  options : ScoreOptions
  deriving DecidableEq, Repr

/-- The argument record of `rewriteTextWithClaude` (minus the ambient
`AppConfig`). -/
structure RewriteArgs where
  originalText : String
  lastAiPercent : Option ℚ
  lastPlagiarismPercent : Option ℚ
  targetMaxAiPercent : ℚ
  targetMaxPlagiarismPercent : ℚ
  tone : String
  domainHint : Option String
  customInstructions : Option String
  maxIterations : Nat
  deriving DecidableEq, Repr

/-- The result of `rewriteTextWithClaude`. -/
structure RewriteResult where
  rewrittenText : String
  reasoning : String
  deriving DecidableEq, Repr

/-- The arguments of `analyzeTextWithClaude` (minus the ambient
`AppConfig`). -/
structure AnalyzeArgs where
  text : String
  aiDetectionPercent : Option ℚ
  plagiarismPercent : Option ℚ
  maxAiPercent : ℚ
  maxPlagiarismPercent : ℚ
  tone : String
  domainHint : Option String
  deriving DecidableEq, Repr

/-- The argument record of `summarizeOptimizationWithClaude` (minus the
ambient `AppConfig`). -/
structure SummaryArgs where
  mode : Mode
  iterationsUsed : Nat
  thresholdsMet : Bool
  history : List HistoryEntry
  finalText : String
  maxAiPercent : ℚ
  maxPlagiarismPercent : ℚ
  deriving DecidableEq, Repr

/-- The part of `AppConfig` the orchestrator reads. -/
structure AppConfig where
  browserProvider : String
  deriving DecidableEq, Repr

/-- External collaborators of the orchestrator, as deterministic oracles.
Operations that the orchestrator wraps in `withRetry` additionally take
the zero-based attempt index, so stateful behaviours (fail then succeed)
are expressible.  `createProvider` yields the created provider's
`providerName`; `onProgress` is the optional caller-supplied progress
callback. -/
structure Env where
  createProvider : Nat → Except JSValue String
  createSession : SessionOptions → Nat → Except JSValue SessionResult
  scoreText : ScoreCall → Nat → Except JSValue GrammarlyScoreResult
  rewrite : RewriteArgs → Except JSValue RewriteResult
  analyze : AnalyzeArgs → Except JSValue String
  summarize : SummaryArgs → Except JSValue String
  closeSession : String → Except JSValue Unit
  onProgress : Option (String → Option ℚ → Except JSValue Unit)

/-- The observable calls the orchestrator makes during one run, plus the
mutable `sessionId` / `provider` variables the `finally` block reads. -/
structure TraceState where
  progressCalls : List (String × Option ℚ)
  rewriteCalls : List RewriteArgs
  scoreCalls : List ScoreCall
  closeCalls : List String
  sessionId : Option String
  providerCreated : Bool
  deriving DecidableEq, Repr

/-- Initial trace state: nothing called, no session, no provider. -/
def initTrace : TraceState := ⟨[], [], [], [], none, false⟩

/-- Record one progress-callback invocation. -/
def recProgressCall (m : String) (p : Option ℚ) (st : TraceState) :
    TraceState :=
  { st with progressCalls := st.progressCalls ++ [(m, p)] }

/-- Record the `provider` variable becoming set. -/
def recProviderCreated (st : TraceState) : TraceState :=
  { st with providerCreated := true }

/-- Record the `sessionId` variable becoming set. -/
def recSessionId (sid : String) (st : TraceState) : TraceState :=
  { st with sessionId := some sid }

/-- Record one `provider.scoreText` invocation. -/
def recScoreCall (c : ScoreCall) (st : TraceState) : TraceState :=
  { st with scoreCalls := st.scoreCalls ++ [c] }

/-- Record one rewrite-collaborator invocation. -/
def recRewriteCall (a : RewriteArgs) (st : TraceState) : TraceState :=
  { st with rewriteCalls := st.rewriteCalls ++ [a] }

/-- Record one `provider.closeSession` invocation. -/
def recCloseCall (sid : String) (st : TraceState) : TraceState :=
  { st with closeCalls := st.closeCalls ++ [sid] }

/-- One `await onProgress?.(message, percent)` step: records the call when
the callback exists and propagates its failure - the orchestrator does not
catch it. -/
def callProgress (env : Env) (message : String) (percent : Option ℚ)
    (st : TraceState) : Option JSValue × TraceState :=
  match env.onProgress with
  | none => (none, st)
  | some f =>
    match f message percent with
    | .ok _ => (none, recProgressCall message percent st)
    | .error e => (some e, recProgressCall message percent st)

/-- The session-creation progress message: the configured provider selects
the human-readable session kind. -/
def creatingSessionMessage (appConfig : AppConfig) : String :=
  let sessionKind :=
    if appConfig.browserProvider = "stagehand" then "Stagehand" else "Browser Use"
  s!"Creating {sessionKind} session..."

/-- The loop's `scoreText` call shape (`flashMode: false`). -/
def mkLoopScoreCall (sid : String) (input : GrammarlyOptimizeInput)
    (iteration : Nat) (text : String) : ScoreCall :=
  ⟨sid, text, ⟨input.max_steps, iteration, input.mode, false⟩⟩

/-- The rewrite-collaborator arguments for one loop pass: the current text
and the most recent scores, plus the run's constants. -/
def mkRewriteArgs (input : GrammarlyOptimizeInput) (currentText : String)
    (lastScores : GrammarlyScoreResult) : RewriteArgs :=
  ⟨currentText, lastScores.aiDetectionPercent, lastScores.plagiarismPercent,
    input.max_ai_percent, input.max_plagiarism_percent, input.tone,
    input.domain_hint, input.custom_instructions, input.max_iterations⟩

/-- The loop's rewrite-phase progress percentage, clamped to the 15-85%
band reserved for the loop. -/
def iterationProgressPercent (input : GrammarlyOptimizeInput)
    (iteration : Nat) : ℚ :=
  max 15 (min 85 (15 + (((iteration : ℚ) - 1) / (input.max_iterations : ℚ)) * 70))

/-- The loop's re-scoring progress percentage (`iteration - 1 + 0.5`). -/
def scoringProgressPercent (input : GrammarlyOptimizeInput)
    (iteration : Nat) : ℚ :=
  max 15 (min 85 (15 + (((iteration : ℚ) - 1 + 1 / 2) / (input.max_iterations : ℚ)) * 70))

/-- Normal-exit payload of the optimize loop: final current text, last
scores, `iterationsUsed`, `reachedThresholds`, and the history. -/
abbrev LoopExit :=
  String × GrammarlyScoreResult × Nat × Bool × List HistoryEntry

/-- The `for (iteration = 1; iteration <= max_iterations; iteration++)`
loop of optimize mode, recursing on the number of passes remaining
(`fuel = max_iterations - iteration + 1` at every call site).  Each pass:
progress, rewrite with the current text and most recent scores, replace
the current text, progress, re-score the new text tagged with this
iteration (with retry), evaluate thresholds, append the history record,
and break on success. -/
def optimizeLoop (env : Env) (input : GrammarlyOptimizeInput)
    (activeSessionId : String) :
    (fuel iteration : Nat) → (currentText : String) →
    (lastScores : GrammarlyScoreResult) → (iterationsUsed : Nat) →
    (reachedThresholds : Bool) → (history : List HistoryEntry) →
    TraceState → Except JSValue LoopExit × TraceState
  | 0, _, currentText, lastScores, iterationsUsed, reachedThresholds,
      history, st =>
    (.ok (currentText, lastScores, iterationsUsed, reachedThresholds,
      history), st)
  | fuel + 1, iteration, currentText, lastScores, _, _, history, st =>
    match callProgress env
        (s!"Iteration {iteration}/{input.max_iterations}: Rewriting with Claude...")
        (some (iterationProgressPercent input iteration)) st with
    | (some e, st) => (.error e, st)
    | (none, st) =>
      match env.rewrite (mkRewriteArgs input currentText lastScores) with
      | .error e =>
        (.error e, recRewriteCall (mkRewriteArgs input currentText lastScores) st)
      | .ok rewriteResult =>
        match callProgress env
            (s!"Iteration {iteration}/{input.max_iterations}: Re-scoring with Grammarly...")
            (some (scoringProgressPercent input iteration))
            (recRewriteCall (mkRewriteArgs input currentText lastScores) st) with
        | (some e, st) => (.error e, st)
        | (none, st) =>
          match (withRetry
              (fun attempt =>
                env.scoreText
                  (mkLoopScoreCall activeSessionId input iteration
                    rewriteResult.rewrittenText)
                  attempt)
              2 2000).result with
          | .error e =>
            (.error e,
              recScoreCall
                (mkLoopScoreCall activeSessionId input iteration
                  rewriteResult.rewrittenText)
                st)
          | .ok lastScores =>
            if thresholdsMet lastScores input.max_ai_percent
                input.max_plagiarism_percent then
              (.ok (rewriteResult.rewrittenText, lastScores, iteration, true,
                history ++
                  [⟨iteration, lastScores.aiDetectionPercent,
                    lastScores.plagiarismPercent, rewriteResult.reasoning⟩]),
                recScoreCall
                  (mkLoopScoreCall activeSessionId input iteration
                    rewriteResult.rewrittenText)
                  st)
            else
              optimizeLoop env input activeSessionId fuel (iteration + 1)
                rewriteResult.rewrittenText lastScores iteration false
                (history ++
                  [⟨iteration, lastScores.aiDetectionPercent,
                    lastScores.plagiarismPercent, rewriteResult.reasoning⟩])
                (recScoreCall
                  (mkLoopScoreCall activeSessionId input iteration
                    rewriteResult.rewrittenText)
                  st)

/-- The baseline `scoreText` call (iteration 0 on the untouched input
text, `flashMode` exactly in `score_only` mode). -/
def baselineScoreCall (input : GrammarlyOptimizeInput) (sid : String) :
    ScoreCall :=
  ⟨sid, input.text,
    ⟨input.max_steps, 0, input.mode, decide (input.mode = Mode.score_only)⟩⟩

/-- The straight-line prefix of the body: session-creation progress call,
provider creation (retried), session creation (retried), baseline-scoring
progress call, baseline scoring of the untouched input text (retried), and
the unconditional baseline history record.  Returns the provider name, the
session result, the baseline scores, and the initial history. -/
def runPreamble (env : Env) (appConfig : AppConfig)
    (input : GrammarlyOptimizeInput) (st : TraceState) :
    Except JSValue (String × SessionResult × GrammarlyScoreResult ×
      List HistoryEntry) × TraceState :=
  match callProgress env (creatingSessionMessage appConfig) (some 5) st with
  | (some e, st) => (.error e, st)
  | (none, st) =>
    match (withRetry (fun attempt => env.createProvider attempt) 2 1000).result with
    | .error e => (.error e, st)
    | .ok providerName =>
      match (withRetry
          (fun attempt => env.createSession ⟨input.proxy_country_code⟩ attempt)
          3 1000).result with
      | .error e => (.error e, recProviderCreated st)
      | .ok sessionResult =>
        match callProgress env "Running initial Grammarly scoring..." (some 10)
            (recSessionId sessionResult.sessionId (recProviderCreated st)) with
        | (some e, st) => (.error e, st)
        | (none, st) =>
          match (withRetry
              (fun attempt =>
                env.scoreText (baselineScoreCall input sessionResult.sessionId)
                  attempt)
              2 2000).result with
          | .error e =>
            (.error e,
              recScoreCall (baselineScoreCall input sessionResult.sessionId) st)
          | .ok lastScores =>
            (.ok (providerName, sessionResult, lastScores,
              [⟨0, lastScores.aiDetectionPercent, lastScores.plagiarismPercent,
                "Baseline Grammarly scores on original text (iteration 0)."⟩]),
              recScoreCall (baselineScoreCall input sessionResult.sessionId) st)

/-- The body of `runGrammarlyOptimization`, everything except the `finally`
cleanup: the preamble above followed by the mode dispatch.  (The first
progress call happens just before the source's `try` block; since no
session exists at that point, folding it into the body does not change the
cleanup behaviour.) -/
def runBody (env : Env) (appConfig : AppConfig)
    (input : GrammarlyOptimizeInput) (st : TraceState) :
    Except JSValue GrammarlyOptimizeResult × TraceState :=
  match runPreamble env appConfig input st with
  | (.error e, st) => (.error e, st)
  | (.ok (providerName, sessionResult, lastScores, history), st) =>
    match input.mode with
    | Mode.score_only =>
      match callProgress env "Scoring complete" (some 100) st with
      | (some e, st) => (.error e, st)
      | (none, st) =>
        (.ok ⟨input.text, lastScores.aiDetectionPercent,
          lastScores.plagiarismPercent, 0,
          thresholdsMet lastScores input.max_ai_percent
            input.max_plagiarism_percent,
          history,
          if thresholdsMet lastScores input.max_ai_percent
              input.max_plagiarism_percent then
            "Score-only run: original text already meets configured AI and plagiarism thresholds."
          else
            "Score-only run: thresholds not met or scores unavailable; no rewriting performed.",
          sessionResult.liveUrl, providerName⟩, st)
    | Mode.analyze =>
      match callProgress env "Analyzing text with Claude..." (some 50) st with
      | (some e, st) => (.error e, st)
      | (none, st) =>
        match env.analyze ⟨input.text, lastScores.aiDetectionPercent,
            lastScores.plagiarismPercent, input.max_ai_percent,
            input.max_plagiarism_percent, input.tone,
            input.domain_hint⟩ with
        | .error e => (.error e, st)
        | .ok analysis =>
          match callProgress env "Analysis complete" (some 100) st with
          | (some e, st) => (.error e, st)
          | (none, st) =>
            (.ok ⟨input.text, lastScores.aiDetectionPercent,
              lastScores.plagiarismPercent, 0,
              thresholdsMet lastScores input.max_ai_percent
                input.max_plagiarism_percent,
              history, analysis, sessionResult.liveUrl, providerName⟩, st)
    | Mode.optimize =>
      match callProgress env "Starting optimization loop..." (some 15) st with
      | (some e, st) => (.error e, st)
      | (none, st) =>
        match optimizeLoop env input sessionResult.sessionId
            input.max_iterations 1 input.text lastScores 0 false
            history st with
        | (.error e, st) => (.error e, st)
        | (.ok (finalText, finalScores, iterationsUsed,
            reachedThresholds, history), st) =>
          match callProgress env "Generating optimization summary..." (some 92) st with
          | (some e, st) => (.error e, st)
          | (none, st) =>
            match env.summarize ⟨input.mode, iterationsUsed,
                reachedThresholds, history, finalText,
                input.max_ai_percent, input.max_plagiarism_percent⟩ with
            | .error e => (.error e, st)
            | .ok notes =>
              match callProgress env "Optimization complete" (some 100) st with
              | (some e, st) => (.error e, st)
              | (none, st) =>
                (.ok ⟨finalText, finalScores.aiDetectionPercent,
                  finalScores.plagiarismPercent, iterationsUsed,
                  reachedThresholds, history, notes, sessionResult.liveUrl,
                  providerName⟩, st)

/-- The `finally` cleanup of `runGrammarlyOptimization`.  If a session was
acquired - by JavaScript truthiness `sessionId && provider`, so an
empty-string session id is falsy and skips cleanup - call `closeSession`;
its outcome is swallowed by the `try/catch` inside the `finally` and never
alters the body's result. -/
def runCleanup (env : Env) (result : Except JSValue GrammarlyOptimizeResult)
    (st : TraceState) : Except JSValue GrammarlyOptimizeResult × TraceState :=
  match st.sessionId, st.providerCreated with
  | some sid, true =>
    if sid = "" then
      (result, st)
    else
      let _ := env.closeSession sid
      (result, recCloseCall sid st)
  | some _, false => (result, st)
  | none, _ => (result, st)

/-- `runGrammarlyOptimization` composed: body, then cleanup. -/
def runGrammarlyOptimization (env : Env) (appConfig : AppConfig)
    (input : GrammarlyOptimizeInput) :
    Except JSValue GrammarlyOptimizeResult × TraceState :=
  let (result, st) := runBody env appConfig input initTrace
  runCleanup env result st

/-- The caller-supplied progress callback, when present, succeeds on every
invocation. -/
def progressOk (env : Env) : Prop :=
  ∀ f, env.onProgress = some f → ∀ m p, ∃ u, f m p = Except.ok u

/-- `callProgress` only ever appends to `progressCalls`; every other state
field is untouched, whatever the callback does. -/
theorem callProgress_fields (env : Env) (m : String) (p : Option ℚ)
    (st : TraceState) (o : Option JSValue) (st' : TraceState)
    (h : callProgress env m p st = (o, st')) :
    st'.rewriteCalls = st.rewriteCalls ∧ st'.scoreCalls = st.scoreCalls ∧
    st'.closeCalls = st.closeCalls ∧ st'.sessionId = st.sessionId ∧
    st'.providerCreated = st.providerCreated := by
  cases henv : env.onProgress with
  | none =>
    simp only [callProgress, henv] at h
    have hsnd : st = st' := congrArg Prod.snd h
    subst hsnd
    exact ⟨rfl, rfl, rfl, rfl, rfl⟩
  | some f =>
    cases hf : f m p with
    | ok u =>
      simp only [callProgress, henv, hf] at h
      have hsnd : recProgressCall m p st = st' := congrArg Prod.snd h
      subst hsnd
      exact ⟨rfl, rfl, rfl, rfl, rfl⟩
    | error e =>
      simp only [callProgress, henv, hf] at h
      have hsnd : recProgressCall m p st = st' := congrArg Prod.snd h
      subst hsnd
      exact ⟨rfl, rfl, rfl, rfl, rfl⟩

/-- Under `progressOk`, a `callProgress` step returns no error and, modulo
the recorded progress entry, leaves the state alone. -/
theorem callProgress_ok (env : Env) (hpo : progressOk env) (m : String)
    (p : Option ℚ) (st : TraceState) :
    ∃ st', callProgress env m p st = (none, st') ∧
      st'.rewriteCalls = st.rewriteCalls ∧ st'.scoreCalls = st.scoreCalls ∧
      st'.closeCalls = st.closeCalls ∧ st'.sessionId = st.sessionId ∧
      st'.providerCreated = st.providerCreated := by
  cases henv : env.onProgress with
  | none => exact ⟨st, by simp [callProgress, henv], rfl, rfl, rfl, rfl, rfl⟩
  | some f =>
    obtain ⟨u, hu⟩ := hpo f henv m p
    exact ⟨recProgressCall m p st, by simp [callProgress, henv, hu], rfl, rfl,
      rfl, rfl, rfl⟩

/-- Inversion for a failed preamble: rewrite and close traces are
untouched, and either the session/provider variables are unchanged or the
provider had already been created. -/
theorem runPreamble_error (env : Env) (appConfig : AppConfig)
    (input : GrammarlyOptimizeInput) (st : TraceState) (e : JSValue)
    (st' : TraceState)
    (h : runPreamble env appConfig input st = (.error e, st')) :
    st'.rewriteCalls = st.rewriteCalls ∧ st'.closeCalls = st.closeCalls ∧
    ((st'.sessionId = st.sessionId ∧
        st'.providerCreated = st.providerCreated) ∨
      st'.providerCreated = true) := by
  unfold runPreamble at h
  rcases h1 : callProgress env (creatingSessionMessage appConfig) (some 5) st
    with ⟨o1, st1⟩
  obtain ⟨hr1, hs1, hc1, hid1, hp1⟩ := callProgress_fields _ _ _ _ _ _ h1
  cases o1 with
  | some e1 =>
    simp only [h1] at h
    have hsnd : st1 = st' := congrArg Prod.snd h
    subst hsnd
    exact ⟨hr1, hc1, Or.inl ⟨hid1, hp1⟩⟩
  | none =>
    simp only [h1] at h
    cases h2 : (withRetry (fun attempt => env.createProvider attempt) 2 1000).result with
    | error e2 =>
      simp only [h2] at h
      have hsnd : st1 = st' := congrArg Prod.snd h
      subst hsnd
      exact ⟨hr1, hc1, Or.inl ⟨hid1, hp1⟩⟩
    | ok pn =>
      simp only [h2] at h
      cases h3 : (withRetry
          (fun attempt => env.createSession ⟨input.proxy_country_code⟩ attempt)
          3 1000).result with
      | error e3 =>
        simp only [h3] at h
        have hsnd : recProviderCreated st1 = st' := congrArg Prod.snd h
        subst hsnd
        exact ⟨hr1, hc1, Or.inr rfl⟩
      | ok sess =>
        simp only [h3] at h
        rcases h4 : callProgress env "Running initial Grammarly scoring..."
            (some 10) (recSessionId sess.sessionId (recProviderCreated st1))
          with ⟨o4, st4⟩
        obtain ⟨hr4, hs4, hc4, hid4, hp4⟩ := callProgress_fields _ _ _ _ _ _ h4
        cases o4 with
        | some e4 =>
          simp only [h4] at h
          have hsnd : st4 = st' := congrArg Prod.snd h
          subst hsnd
          exact ⟨hr4.trans hr1, hc4.trans hc1, Or.inr (hp4.trans rfl)⟩
        | none =>
          simp only [h4] at h
          cases h5 : (withRetry
              (fun attempt =>
                env.scoreText (baselineScoreCall input sess.sessionId) attempt)
              2 2000).result with
          | error e5 =>
            simp only [h5] at h
            have hsnd :
                recScoreCall (baselineScoreCall input sess.sessionId) st4 = st' :=
              congrArg Prod.snd h
            subst hsnd
            exact ⟨hr4.trans hr1, hc4.trans hc1, Or.inr (hp4.trans rfl)⟩
          | ok ls =>
            simp only [h5] at h
            simp at h

/-- Inversion for a successful preamble: the history is exactly the
baseline record of the returned scores, the rewrite and close traces are
untouched, the session id is recorded, and the provider flag is set. -/
theorem runPreamble_ok (env : Env) (appConfig : AppConfig)
    (input : GrammarlyOptimizeInput) (st : TraceState) (pn : String)
    (sess : SessionResult) (ls : GrammarlyScoreResult)
    (hist : List HistoryEntry) (st' : TraceState)
    (h : runPreamble env appConfig input st = (.ok (pn, sess, ls, hist), st')) :
    hist = [⟨0, ls.aiDetectionPercent, ls.plagiarismPercent,
      "Baseline Grammarly scores on original text (iteration 0)."⟩] ∧
    (withRetry
      (fun attempt =>
        env.scoreText (baselineScoreCall input sess.sessionId) attempt)
      2 2000).result = Except.ok ls ∧
    st'.rewriteCalls = st.rewriteCalls ∧ st'.closeCalls = st.closeCalls ∧
    st'.scoreCalls = st.scoreCalls ++ [baselineScoreCall input sess.sessionId] ∧
    st'.sessionId = some sess.sessionId ∧ st'.providerCreated = true := by
  unfold runPreamble at h
  rcases h1 : callProgress env (creatingSessionMessage appConfig) (some 5) st
    with ⟨o1, st1⟩
  obtain ⟨hr1, hs1, hc1, hid1, hp1⟩ := callProgress_fields _ _ _ _ _ _ h1
  cases o1 with
  | some e1 => simp only [h1] at h; simp at h
  | none =>
    simp only [h1] at h
    cases h2 : (withRetry (fun attempt => env.createProvider attempt) 2 1000).result with
    | error e2 => simp only [h2] at h; simp at h
    | ok pn' =>
      simp only [h2] at h
      cases h3 : (withRetry
          (fun attempt => env.createSession ⟨input.proxy_country_code⟩ attempt)
          3 1000).result with
      | error e3 => simp only [h3] at h; simp at h
      | ok sess' =>
        simp only [h3] at h
        rcases h4 : callProgress env "Running initial Grammarly scoring..."
            (some 10) (recSessionId sess'.sessionId (recProviderCreated st1))
          with ⟨o4, st4⟩
        obtain ⟨hr4, hs4, hc4, hid4, hp4⟩ := callProgress_fields _ _ _ _ _ _ h4
        cases o4 with
        | some e4 => simp only [h4] at h; simp at h
        | none =>
          simp only [h4] at h
          cases h5 : (withRetry
              (fun attempt =>
                env.scoreText (baselineScoreCall input sess'.sessionId) attempt)
              2 2000).result with
          | error e5 => simp only [h5] at h; simp at h
          | ok ls' =>
            simp only [h5] at h
            have hfst :
                (Except.ok (pn', sess', ls',
                  ([⟨0, ls'.aiDetectionPercent, ls'.plagiarismPercent,
                    "Baseline Grammarly scores on original text (iteration 0)."⟩] :
                    List HistoryEntry)) :
                  Except JSValue (String × SessionResult ×
                    GrammarlyScoreResult × List HistoryEntry)) =
                Except.ok (pn, sess, ls, hist) := congrArg Prod.fst h
            have hsnd :
                recScoreCall (baselineScoreCall input sess'.sessionId) st4 = st' :=
              congrArg Prod.snd h
            injection hfst with hpay
            injection hpay with hpn hrest
            injection hrest with hsess hrest'
            injection hrest' with hls hhist
            subst hpn hsess hls hhist hsnd
            refine ⟨rfl, h5, hr4.trans hr1, hc4.trans hc1, ?_,
              hid4.trans rfl, hp4.trans rfl⟩
            show st4.scoreCalls ++ _ = st.scoreCalls ++ _
            rw [hs4.trans hs1]

/-- Search for the first index among `start, …, start + fuel - 1` at which
`pred` holds. -/
def firstPassingAux (pred : Nat → Bool) : (start fuel : Nat) → Option Nat
  | _, 0 => none
  | start, fuel + 1 =>
    if pred start then some start else firstPassingAux pred (start + 1) fuel

/-- The first loop pass (1-indexed, among the first `maxIter` passes)
whose scores meet the thresholds. -/
def firstPassingIteration (pred : Nat → Bool) (maxIter : Nat) : Option Nat :=
  firstPassingAux pred 1 maxIter

/-- A found index is in range, satisfies `pred`, and is the least such. -/
theorem firstPassingAux_some_spec (pred : Nat → Bool) :
    ∀ fuel start k, firstPassingAux pred start fuel = some k →
      start ≤ k ∧ k < start + fuel ∧ pred k = true ∧
        ∀ j, start ≤ j → j < k → pred j = false := by
  intro fuel
  induction fuel with
  | zero => intro start k h; simp [firstPassingAux] at h
  | succ fuel ih =>
    intro start k h
    by_cases hp : pred start = true
    · simp only [firstPassingAux, hp, if_true] at h
      injection h with h
      subst h
      exact ⟨le_refl _, by omega, hp, fun j h1 h2 => by omega⟩
    · simp only [firstPassingAux, hp, if_false] at h
      obtain ⟨h1, h2, h3, h4⟩ := ih (start + 1) k h
      refine ⟨by omega, by omega, h3, fun j hj1 hj2 => ?_⟩
      rcases Nat.eq_or_lt_of_le hj1 with heq | hlt
      · subst heq; exact Bool.eq_false_iff.mpr hp
      · exact h4 j hlt hj2

/-- If no index is found, `pred` fails on the whole searched range. -/
theorem firstPassingAux_none_spec (pred : Nat → Bool) :
    ∀ fuel start, firstPassingAux pred start fuel = none →
      ∀ j, start ≤ j → j < start + fuel → pred j = false := by
  intro fuel
  induction fuel with
  | zero => intro start _ j h1 h2; omega
  | succ fuel ih =>
    intro start h j h1 h2
    by_cases hp : pred start = true
    · simp [firstPassingAux, hp] at h
    · simp only [firstPassingAux, hp, if_false] at h
      rcases Nat.eq_or_lt_of_le h1 with heq | hlt
      · subst heq; exact Bool.eq_false_iff.mpr hp
      · exact ih (start + 1) h j hlt (by omega)

/-- The pass index at which the optimize loop exits when every collaborator
succeeds: the first passing index if one exists within the remaining fuel,
otherwise the last executed pass (`i - 1 + fuel`). -/
def loopExitIndex (pred : Nat → Bool) (fuel i : Nat) : Nat :=
  (firstPassingAux pred i fuel).getD (i - 1 + fuel)

/-- The `reachedThresholds` flag at loop exit when every collaborator
succeeds. -/
def loopExitMet (pred : Nat → Bool) (fuel i : Nat) (rtc : Bool) : Bool :=
  match firstPassingAux pred i fuel with
  | some _ => true
  | none => if fuel = 0 then rtc else false

/-- The loop exit index is at least `i - 1` (the previously executed
pass). -/
theorem loopExitIndex_ge (pred : Nat → Bool) (fuel i : Nat) :
    i - 1 ≤ loopExitIndex pred fuel i := by
  unfold loopExitIndex
  cases h : firstPassingAux pred i fuel with
  | none => simp only [Option.getD_none]; omega
  | some k =>
    obtain ⟨h1, _, _, _⟩ := firstPassingAux_some_spec pred fuel i k h
    simp only [Option.getD_some]
    omega

/-- Whatever the collaborators do, the optimize loop never touches the
close trace, the session id, or the provider flag. -/
theorem optimizeLoop_preserves (env : Env) (input : GrammarlyOptimizeInput)
    (sid : String) :
    ∀ fuel iteration ct ls iu rt hist st o st',
      optimizeLoop env input sid fuel iteration ct ls iu rt hist st =
        (o, st') →
      st'.closeCalls = st.closeCalls ∧ st'.sessionId = st.sessionId ∧
        st'.providerCreated = st.providerCreated := by
  intro fuel
  induction fuel with
  | zero =>
    intro iteration ct ls iu rt hist st o st' h
    simp only [optimizeLoop] at h
    have hsnd : st = st' := congrArg Prod.snd h
    subst hsnd
    exact ⟨rfl, rfl, rfl⟩
  | succ fuel ih =>
    intro iteration ct ls iu rt hist st o st' h
    simp only [optimizeLoop] at h
    rcases hp1 : callProgress env
        (s!"Iteration {iteration}/{input.max_iterations}: Rewriting with Claude...")
        (some (iterationProgressPercent input iteration)) st with ⟨o1, st1⟩
    obtain ⟨_, _, hc1, hid1, hpr1⟩ := callProgress_fields _ _ _ _ _ _ hp1
    simp only [hp1] at h
    cases o1 with
    | some e1 =>
      have hsnd : st1 = st' := congrArg Prod.snd h
      subst hsnd
      exact ⟨hc1, hid1, hpr1⟩
    | none =>
      cases hrw : env.rewrite (mkRewriteArgs input ct ls) with
      | error e2 =>
        simp only [hrw] at h
        have hsnd : recRewriteCall (mkRewriteArgs input ct ls) st1 = st' :=
          congrArg Prod.snd h
        subst hsnd
        exact ⟨hc1, hid1, hpr1⟩
      | ok rr =>
        simp only [hrw] at h
        rcases hp2 : callProgress env
            (s!"Iteration {iteration}/{input.max_iterations}: Re-scoring with Grammarly...")
            (some (scoringProgressPercent input iteration))
            (recRewriteCall (mkRewriteArgs input ct ls) st1) with ⟨o2, st2⟩
        obtain ⟨_, _, hc2, hid2, hpr2⟩ := callProgress_fields _ _ _ _ _ _ hp2
        simp only [hp2] at h
        cases o2 with
        | some e2 =>
          have hsnd : st2 = st' := congrArg Prod.snd h
          subst hsnd
          exact ⟨hc2.trans hc1, hid2.trans hid1, hpr2.trans hpr1⟩
        | none =>
          cases hsc : (withRetry
              (fun attempt =>
                env.scoreText
                  (mkLoopScoreCall sid input iteration rr.rewrittenText)
                  attempt)
              2 2000).result with
          | error e3 =>
            simp only [hsc] at h
            have hsnd :
                recScoreCall
                  (mkLoopScoreCall sid input iteration rr.rewrittenText) st2 =
                  st' := congrArg Prod.snd h
            subst hsnd
            exact ⟨hc2.trans hc1, hid2.trans hid1, hpr2.trans hpr1⟩
          | ok ls2 =>
            simp only [hsc] at h
            cases hth : thresholdsMet ls2 input.max_ai_percent
                input.max_plagiarism_percent with
            | true =>
              rw [hth, if_pos rfl] at h
              have hsnd :
                  recScoreCall
                    (mkLoopScoreCall sid input iteration rr.rewrittenText)
                    st2 = st' := congrArg Prod.snd h
              subst hsnd
              exact ⟨hc2.trans hc1, hid2.trans hid1, hpr2.trans hpr1⟩
            | false =>
              rw [hth, if_neg (by simp)] at h
              obtain ⟨hcR, hidR, hprR⟩ := ih _ _ _ _ _ _ _ _ _ h
              exact ⟨hcR.trans (hc2.trans hc1), hidR.trans (hid2.trans hid1),
                hprR.trans (hpr2.trans hpr1)⟩

/-- On a normal exit, the optimize loop has only appended history records,
and their iteration indices are consecutive starting at the entry
iteration. -/
theorem optimizeLoop_history (env : Env) (input : GrammarlyOptimizeInput)
    (sid : String) :
    ∀ fuel iteration ct ls iu rt hist st ct' ls' iu' rt' hist' st',
      optimizeLoop env input sid fuel iteration ct ls iu rt hist st =
        (.ok (ct', ls', iu', rt', hist'), st') →
      ∃ ext, hist' = hist ++ ext ∧
        ext.map HistoryEntry.iteration = List.range' iteration ext.length := by
  intro fuel
  induction fuel with
  | zero =>
    intro iteration ct ls iu rt hist st ct' ls' iu' rt' hist' st' h
    simp only [optimizeLoop] at h
    have hfst : (Except.ok (ct, ls, iu, rt, hist) :
        Except JSValue LoopExit) = Except.ok (ct', ls', iu', rt', hist') :=
      congrArg Prod.fst h
    injection hfst with hpay
    injection hpay with h1 hrest
    injection hrest with h2 hrest'
    injection hrest' with h3 hrest''
    injection hrest'' with h4 h5
    subst h5
    exact ⟨[], by simp, by simp⟩
  | succ fuel ih =>
    intro iteration ct ls iu rt hist st ct' ls' iu' rt' hist' st' h
    simp only [optimizeLoop] at h
    rcases hp1 : callProgress env
        (s!"Iteration {iteration}/{input.max_iterations}: Rewriting with Claude...")
        (some (iterationProgressPercent input iteration)) st with ⟨o1, st1⟩
    simp only [hp1] at h
    cases o1 with
    | some e1 => simp at h
    | none =>
      cases hrw : env.rewrite (mkRewriteArgs input ct ls) with
      | error e2 => simp only [hrw] at h; simp at h
      | ok rr =>
        simp only [hrw] at h
        rcases hp2 : callProgress env
            (s!"Iteration {iteration}/{input.max_iterations}: Re-scoring with Grammarly...")
            (some (scoringProgressPercent input iteration))
            (recRewriteCall (mkRewriteArgs input ct ls) st1) with ⟨o2, st2⟩
        simp only [hp2] at h
        cases o2 with
        | some e2 => simp at h
        | none =>
          cases hsc : (withRetry
              (fun attempt =>
                env.scoreText
                  (mkLoopScoreCall sid input iteration rr.rewrittenText)
                  attempt)
              2 2000).result with
          | error e3 => simp only [hsc] at h; simp at h
          | ok ls2 =>
            simp only [hsc] at h
            cases hth : thresholdsMet ls2 input.max_ai_percent
                input.max_plagiarism_percent with
            | true =>
              rw [hth, if_pos rfl] at h
              have hfst : (Except.ok (rr.rewrittenText, ls2, iteration, true,
                  hist ++ [⟨iteration, ls2.aiDetectionPercent,
                    ls2.plagiarismPercent, rr.reasoning⟩]) :
                  Except JSValue LoopExit) =
                  Except.ok (ct', ls', iu', rt', hist') := congrArg Prod.fst h
              injection hfst with hpay
              injection hpay with h1 hrest
              injection hrest with h2 hrest'
              injection hrest' with h3 hrest''
              injection hrest'' with h4 h5
              subst h5
              exact ⟨[⟨iteration, ls2.aiDetectionPercent,
                ls2.plagiarismPercent, rr.reasoning⟩], rfl, by
                  simp [List.range']⟩
            | false =>
              rw [hth, if_neg (by simp)] at h
              obtain ⟨ext, hext, hmap⟩ := ih _ _ _ _ _ _ _ _ _ _ _ _ _ h
              refine ⟨⟨iteration, ls2.aiDetectionPercent,
                ls2.plagiarismPercent, rr.reasoning⟩ :: ext, ?_, ?_⟩
              · rw [hext]; simp [List.append_assoc]
              · simp only [List.map_cons, List.length_cons, hmap,
                  List.range'_succ]

/-- The ideal text sequence of an optimize run whose rewrite and scoring
collaborators are the pure oracles `rw` and `sc`: entry `0` is the input
text, and entry `i + 1` is the rewrite of entry `i` given the oracle
scores of pass `i`. -/
def optTexts (input : GrammarlyOptimizeInput)
    (rw : RewriteArgs → RewriteResult)
    (sc : ScoreCall → GrammarlyScoreResult) (sid : String) : Nat → String
  | 0 => input.text
  | i + 1 =>
    (rw (mkRewriteArgs input (optTexts input rw sc sid i)
      (sc (mkLoopScoreCall sid input i
        (optTexts input rw sc sid i))))).rewrittenText

/-- The ideal score sequence: the oracle scores of pass `i` on the ideal
text of pass `i`. -/
def optScores (input : GrammarlyOptimizeInput)
    (rw : RewriteArgs → RewriteResult)
    (sc : ScoreCall → GrammarlyScoreResult) (sid : String) (i : Nat) :
    GrammarlyScoreResult :=
  sc (mkLoopScoreCall sid input i (optTexts input rw sc sid i))

/-- Whether the ideal scores of pass `i` meet the thresholds. -/
def optPred (input : GrammarlyOptimizeInput)
    (rw : RewriteArgs → RewriteResult)
    (sc : ScoreCall → GrammarlyScoreResult) (sid : String) (i : Nat) : Bool :=
  thresholdsMet (optScores input rw sc sid i) input.max_ai_percent
    input.max_plagiarism_percent

/-- The rewrite-collaborator arguments of ideal pass `i` (for `i ≥ 1`):
the text and the scores carried over from pass `i - 1`. -/
def optRewriteArgs (input : GrammarlyOptimizeInput)
    (rw : RewriteArgs → RewriteResult)
    (sc : ScoreCall → GrammarlyScoreResult) (sid : String) (i : Nat) :
    RewriteArgs :=
  mkRewriteArgs input (optTexts input rw sc sid (i - 1))
    (optScores input rw sc sid (i - 1))

/-- The ideal history record of pass `i` (for `i ≥ 1`). -/
def optHistEntry (input : GrammarlyOptimizeInput)
    (rw : RewriteArgs → RewriteResult)
    (sc : ScoreCall → GrammarlyScoreResult) (sid : String) (i : Nat) :
    HistoryEntry :=
  ⟨i, (optScores input rw sc sid i).aiDetectionPercent,
    (optScores input rw sc sid i).plagiarismPercent,
    (rw (optRewriteArgs input rw sc sid i)).reasoning⟩

/-- For `i ≥ 1`, the ideal text of pass `i` is the output of the ideal
rewrite of pass `i`. -/
theorem optTexts_eq_rewrite (input : GrammarlyOptimizeInput)
    (rw : RewriteArgs → RewriteResult)
    (sc : ScoreCall → GrammarlyScoreResult) (sid : String) (i : Nat)
    (hi : 1 ≤ i) :
    optTexts input rw sc sid i =
      (rw (optRewriteArgs input rw sc sid i)).rewrittenText := by
  obtain ⟨j, rfl⟩ : ∃ j, i = j + 1 := ⟨i - 1, by omega⟩
  simp [optTexts, optRewriteArgs, optScores]

/-- Splitting the first element off a map over consecutive indices. -/
theorem range_map_split {β : Type} (f : Nat → β) (i k : Nat) (hik : i ≤ k) :
    (List.range' i (k + 1 - i)).map f =
      f i :: (List.range' (i + 1) (k + 1 - (i + 1))).map f := by
  have h1 : k + 1 - i = (k + 1 - (i + 1)) + 1 := by omega
  rw [h1, List.range'_succ, List.map_cons]

/-- Under succeeding collaborators, the preamble returns the provider
name, the session, and the baseline scores, appending only to the
progress and scoring traces. -/
theorem runPreamble_success (env : Env) (appConfig : AppConfig)
    (input : GrammarlyOptimizeInput) (st : TraceState) (pn : String)
    (sess : SessionResult) (sc : ScoreCall → GrammarlyScoreResult)
    (hpo : progressOk env)
    (hprov : env.createProvider 0 = Except.ok pn)
    (hsess : env.createSession ⟨input.proxy_country_code⟩ 0 = Except.ok sess)
    (hsc : ∀ call, env.scoreText call 0 = Except.ok (sc call)) :
    ∃ st', runPreamble env appConfig input st =
        (.ok (pn, sess, sc (baselineScoreCall input sess.sessionId),
          [⟨0, (sc (baselineScoreCall input sess.sessionId)).aiDetectionPercent,
            (sc (baselineScoreCall input sess.sessionId)).plagiarismPercent,
            "Baseline Grammarly scores on original text (iteration 0)."⟩]),
          st') ∧
      st'.rewriteCalls = st.rewriteCalls ∧ st'.closeCalls = st.closeCalls ∧
      st'.scoreCalls = st.scoreCalls ++ [baselineScoreCall input sess.sessionId] ∧
      st'.sessionId = some sess.sessionId ∧ st'.providerCreated = true := by
  obtain ⟨st1, hp1, hr1, hs1, hc1, hid1, hpr1⟩ :=
    callProgress_ok env hpo (creatingSessionMessage appConfig) (some 5) st
  obtain ⟨st2, hp2, hr2, hs2, hc2, hid2, hpr2⟩ :=
    callProgress_ok env hpo "Running initial Grammarly scoring..." (some 10)
      (recSessionId sess.sessionId (recProviderCreated st1))
  have hprovR :
      (withRetry (fun attempt => env.createProvider attempt) 2 1000).result =
        Except.ok pn := by
    rw [withRetry_first_ok _ 2 1000 _ hprov]
  have hsessR :
      (withRetry
        (fun attempt => env.createSession ⟨input.proxy_country_code⟩ attempt)
        3 1000).result = Except.ok sess := by
    rw [withRetry_first_ok _ 3 1000 _ hsess]
  have hscR :
      (withRetry
        (fun attempt =>
          env.scoreText (baselineScoreCall input sess.sessionId) attempt)
        2 2000).result =
        Except.ok (sc (baselineScoreCall input sess.sessionId)) := by
    rw [withRetry_first_ok _ 2 2000 _ (hsc _)]
  refine ⟨recScoreCall (baselineScoreCall input sess.sessionId) st2,
    ?_, hr2.trans hr1, hc2.trans hc1, ?_, hid2.trans rfl, hpr2.trans rfl⟩
  · simp only [runPreamble, hp1, hprovR, hsessR, hp2, hscR]
  · show st2.scoreCalls ++ _ = st.scoreCalls ++ _
    rw [hs2.trans hs1]

/-- Full characterization of the optimize loop under succeeding
collaborators: starting pass `i` with the ideal pass-`(i-1)` text and
scores, the loop exits normally at pass `loopExitIndex`; the final text,
scores and `iterationsUsed` are the ideal values of that pass; the history
gains exactly the records of passes `i … exit` in order; and the rewrite
and scoring traces gain exactly the ideal calls of those passes. -/
theorem optimizeLoop_char (env : Env) (input : GrammarlyOptimizeInput)
    (sid : String) (rw : RewriteArgs → RewriteResult)
    (sc : ScoreCall → GrammarlyScoreResult)
    (hpo : progressOk env)
    (hrw : ∀ args, env.rewrite args = Except.ok (rw args))
    (hsc : ∀ call, env.scoreText call 0 = Except.ok (sc call)) :
    ∀ fuel i rtc hist st, 1 ≤ i →
      ∃ st',
        optimizeLoop env input sid fuel i
            (optTexts input rw sc sid (i - 1))
            (optScores input rw sc sid (i - 1)) (i - 1) rtc hist st =
          (.ok
            (optTexts input rw sc sid
              (loopExitIndex (optPred input rw sc sid) fuel i),
             optScores input rw sc sid
              (loopExitIndex (optPred input rw sc sid) fuel i),
             loopExitIndex (optPred input rw sc sid) fuel i,
             loopExitMet (optPred input rw sc sid) fuel i rtc,
             hist ++ (List.range' i
               (loopExitIndex (optPred input rw sc sid) fuel i + 1 - i)).map
               (optHistEntry input rw sc sid)),
            st') ∧
        st'.rewriteCalls = st.rewriteCalls ++
          (List.range' i
            (loopExitIndex (optPred input rw sc sid) fuel i + 1 - i)).map
            (optRewriteArgs input rw sc sid) ∧
        st'.scoreCalls = st.scoreCalls ++
          (List.range' i
            (loopExitIndex (optPred input rw sc sid) fuel i + 1 - i)).map
            (fun j => mkLoopScoreCall sid input j (optTexts input rw sc sid j)) ∧
        st'.closeCalls = st.closeCalls ∧ st'.sessionId = st.sessionId ∧
        st'.providerCreated = st.providerCreated := by
  intro fuel
  induction fuel with
  | zero =>
    intro i rtc hist st hi
    have hK : loopExitIndex (optPred input rw sc sid) 0 i = i - 1 := by
      simp [loopExitIndex, firstPassingAux]
    have hM : loopExitMet (optPred input rw sc sid) 0 i rtc = rtc := by
      simp [loopExitMet, firstPassingAux]
    have hlen : loopExitIndex (optPred input rw sc sid) 0 i + 1 - i = 0 := by
      rw [hK]; omega
    refine ⟨st, ?_, ?_, ?_, rfl, rfl, rfl⟩
    · rw [hlen, hK, hM]
      simp [optimizeLoop]
    · rw [hlen]; simp
    · rw [hlen]; simp
  | succ fuel ih =>
    intro i rtc hist st hi
    obtain ⟨st1, hp1, hr1, hs1, hc1, hid1, hpr1⟩ :=
      callProgress_ok env hpo
        (s!"Iteration {i}/{input.max_iterations}: Rewriting with Claude...")
        (some (iterationProgressPercent input i)) st
    obtain ⟨st2, hp2, hr2, hs2, hc2, hid2, hpr2⟩ :=
      callProgress_ok env hpo
        (s!"Iteration {i}/{input.max_iterations}: Re-scoring with Grammarly...")
        (some (scoringProgressPercent input i))
        (recRewriteCall
          (mkRewriteArgs input (optTexts input rw sc sid (i - 1))
            (optScores input rw sc sid (i - 1)))
          st1)
    have hfold :
        (rw (mkRewriteArgs input (optTexts input rw sc sid (i - 1))
          (optScores input rw sc sid (i - 1)))).rewrittenText =
          optTexts input rw sc sid i := by
      rw [optTexts_eq_rewrite input rw sc sid i hi, optRewriteArgs]
    have hscR :
        (withRetry
          (fun attempt =>
            env.scoreText (mkLoopScoreCall sid input i
              (optTexts input rw sc sid i)) attempt)
          2 2000).result =
          Except.ok (optScores input rw sc sid i) := by
      rw [withRetry_first_ok _ 2 2000 _ (hsc _)]
      rfl
    have hpredEq :
        thresholdsMet (optScores input rw sc sid i) input.max_ai_percent
          input.max_plagiarism_percent = optPred input rw sc sid i := rfl
    cases hpred : optPred input rw sc sid i with
    | true =>
      have hfp :
          firstPassingAux (optPred input rw sc sid) i (fuel + 1) = some i := by
        simp [firstPassingAux, hpred]
      have hK : loopExitIndex (optPred input rw sc sid) (fuel + 1) i = i := by
        simp [loopExitIndex, hfp]
      have hM : loopExitMet (optPred input rw sc sid) (fuel + 1) i rtc = true := by
        simp [loopExitMet, hfp]
      have hlen :
          loopExitIndex (optPred input rw sc sid) (fuel + 1) i + 1 - i = 1 := by
        rw [hK]; omega
      refine ⟨recScoreCall (mkLoopScoreCall sid input i
          (optTexts input rw sc sid i)) st2, ?_, ?_, ?_, ?_, ?_, ?_⟩
      · rw [hlen, hK, hM]
        simp only [optimizeLoop, hp1, hrw, hfold, hp2, hscR, hpredEq, hpred,
          if_pos]
        rw [optTexts_eq_rewrite input rw sc sid i hi, optRewriteArgs]
        simp [optHistEntry, optRewriteArgs, List.range']
      · rw [hlen]
        have : (recScoreCall (mkLoopScoreCall sid input i
            (optTexts input rw sc sid i)) st2).rewriteCalls =
            st1.rewriteCalls ++
              [mkRewriteArgs input (optTexts input rw sc sid (i - 1))
                (optScores input rw sc sid (i - 1))] := hr2
        rw [this, hr1]
        simp [optRewriteArgs, List.range']
      · rw [hlen]
        have : (recScoreCall (mkLoopScoreCall sid input i
            (optTexts input rw sc sid i)) st2).scoreCalls =
            st2.scoreCalls ++
              [mkLoopScoreCall sid input i (optTexts input rw sc sid i)] := rfl
        rw [this, hs2.trans hs1]
        simp [List.range']
      · exact hc2.trans hc1
      · exact hid2.trans hid1
      · exact hpr2.trans hpr1
    | false =>
      obtain ⟨st', hloop, hR, hS, hC, hI, hP⟩ :=
        ih (i + 1) false
          (hist ++ [⟨i, (optScores input rw sc sid i).aiDetectionPercent,
            (optScores input rw sc sid i).plagiarismPercent,
            (rw (mkRewriteArgs input (optTexts input rw sc sid (i - 1))
              (optScores input rw sc sid (i - 1)))).reasoning⟩])
          (recScoreCall (mkLoopScoreCall sid input i
            (optTexts input rw sc sid i)) st2)
          (by omega)
      simp only [Nat.add_sub_cancel] at hloop
      have hfp :
          firstPassingAux (optPred input rw sc sid) i (fuel + 1) =
            firstPassingAux (optPred input rw sc sid) (i + 1) fuel := by
        simp [firstPassingAux, hpred]
      have hK : loopExitIndex (optPred input rw sc sid) (fuel + 1) i =
          loopExitIndex (optPred input rw sc sid) fuel (i + 1) := by
        unfold loopExitIndex
        rw [hfp]
        cases firstPassingAux (optPred input rw sc sid) (i + 1) fuel with
        | none => simp only [Option.getD_none]; omega
        | some k => simp only [Option.getD_some]
      have hM : loopExitMet (optPred input rw sc sid) (fuel + 1) i rtc =
          loopExitMet (optPred input rw sc sid) fuel (i + 1) false := by
        unfold loopExitMet
        rw [hfp]
        cases firstPassingAux (optPred input rw sc sid) (i + 1) fuel with
        | none => cases fuel <;> simp
        | some k => simp
      have hge : i ≤ loopExitIndex (optPred input rw sc sid) fuel (i + 1) := by
        have := loopExitIndex_ge (optPred input rw sc sid) fuel (i + 1)
        omega
      refine ⟨st', ?_, ?_, ?_, ?_, ?_, ?_⟩
      · rw [hK, hM]
        simp only [optimizeLoop, hp1, hrw, hfold, hp2, hscR, hpredEq, hpred]
        rw [if_neg (by simp)]
        rw [hloop]
        rw [range_map_split (optHistEntry input rw sc sid) i _ hge]
        simp only [optHistEntry, optRewriteArgs]
        simp [List.append_assoc]
      · rw [hK, range_map_split (optRewriteArgs input rw sc sid) i _ hge]
        rw [hR]
        have : (recScoreCall (mkLoopScoreCall sid input i
            (optTexts input rw sc sid i)) st2).rewriteCalls =
            st1.rewriteCalls ++
              [mkRewriteArgs input (optTexts input rw sc sid (i - 1))
                (optScores input rw sc sid (i - 1))] := hr2
        rw [this, hr1]
        simp [optRewriteArgs, List.append_assoc]
      · rw [hK, range_map_split
          (fun j => mkLoopScoreCall sid input j (optTexts input rw sc sid j))
          i _ hge]
        rw [hS]
        have : (recScoreCall (mkLoopScoreCall sid input i
            (optTexts input rw sc sid i)) st2).scoreCalls =
            st2.scoreCalls ++
              [mkLoopScoreCall sid input i (optTexts input rw sc sid i)] := rfl
        rw [this, hs2.trans hs1]
        simp [List.append_assoc]
      · exact hC.trans (hc2.trans hc1)
      · exact hI.trans (hid2.trans hid1)
      · exact hP.trans (hpr2.trans hpr1)

/-- The cleanup step never changes the outcome and touches only the close
trace. -/
theorem runCleanup_spec (env : Env) (r : Except JSValue GrammarlyOptimizeResult)
    (st : TraceState) :
    (runCleanup env r st).1 = r ∧
    (runCleanup env r st).2.rewriteCalls = st.rewriteCalls ∧
    (runCleanup env r st).2.scoreCalls = st.scoreCalls ∧
    (runCleanup env r st).2.progressCalls = st.progressCalls ∧
    (runCleanup env r st).2.sessionId = st.sessionId ∧
    (runCleanup env r st).2.providerCreated = st.providerCreated := by
  rcases hsid : st.sessionId with _ | sid
  · simp [runCleanup, hsid]
  · cases hpc : st.providerCreated
    · simp [runCleanup, hsid, hpc]
    · by_cases hemp : sid = ""
      · simp [runCleanup, hsid, hpc, hemp]
      · simp [runCleanup, hsid, hpc, hemp, recCloseCall]

/-- When the body ends with a truthy session id and a created provider,
cleanup invokes `closeSession` with exactly that id. -/
theorem runCleanup_close (env : Env)
    (r : Except JSValue GrammarlyOptimizeResult) (st : TraceState)
    (sid : String) (hsid : st.sessionId = some sid)
    (hpc : st.providerCreated = true) (hne : sid ≠ "") :
    (runCleanup env r st).2.closeCalls = st.closeCalls ++ [sid] := by
  simp [runCleanup, hsid, hpc, hne, recCloseCall]

/-- `runGrammarlyOptimization` is the cleanup applied to the body's
outcome and final state. -/
theorem runGrammarly_eq_cleanup (env : Env) (appConfig : AppConfig)
    (input : GrammarlyOptimizeInput) :
    runGrammarlyOptimization env appConfig input =
      runCleanup env (runBody env appConfig input initTrace).1
        (runBody env appConfig input initTrace).2 := by
  unfold runGrammarlyOptimization
  rcases runBody env appConfig input initTrace with ⟨r, st⟩
  rfl

/-- Whatever the collaborators do and whatever the mode, the body never
touches the close trace, and either leaves the session/provider variables
alone or has created the provider. -/
theorem runBody_fields (env : Env) (appConfig : AppConfig)
    (input : GrammarlyOptimizeInput) (st : TraceState)
    (out : Except JSValue GrammarlyOptimizeResult) (st' : TraceState)
    (h : runBody env appConfig input st = (out, st')) :
    st'.closeCalls = st.closeCalls ∧
    ((st'.sessionId = st.sessionId ∧
        st'.providerCreated = st.providerCreated) ∨
      st'.providerCreated = true) := by
  unfold runBody at h
  rcases hpre : runPreamble env appConfig input st with ⟨oP, stP⟩
  cases oP with
  | error e =>
    obtain ⟨hrP, hcP, hdisj⟩ := runPreamble_error _ _ _ _ _ _ hpre
    simp only [hpre] at h
    have hsnd : stP = st' := congrArg Prod.snd h
    subst hsnd
    exact ⟨hcP, hdisj⟩
  | ok payload =>
    obtain ⟨pn, sess, ls, hist⟩ := payload
    obtain ⟨hhist, hscore, hrP, hcP, hsP, hidP, hpP⟩ :=
      runPreamble_ok _ _ _ _ _ _ _ _ _ hpre
    simp only [hpre] at h
    cases hmode : input.mode with
    | score_only =>
      simp only [hmode] at h
      rcases hcp : callProgress env "Scoring complete" (some 100) stP
        with ⟨oC, stC⟩
      obtain ⟨_, _, hcC, hidC, hpC⟩ := callProgress_fields _ _ _ _ _ _ hcp
      simp only [hcp] at h
      cases oC with
      | some e =>
        have hsnd : stC = st' := congrArg Prod.snd h
        subst hsnd
        exact ⟨hcC.trans hcP, Or.inr (hpC.trans hpP)⟩
      | none =>
        have hsnd : stC = st' := congrArg Prod.snd h
        subst hsnd
        exact ⟨hcC.trans hcP, Or.inr (hpC.trans hpP)⟩
    | analyze =>
      simp only [hmode] at h
      rcases hcp : callProgress env "Analyzing text with Claude..." (some 50)
          stP with ⟨oC, stC⟩
      obtain ⟨_, _, hcC, hidC, hpC⟩ := callProgress_fields _ _ _ _ _ _ hcp
      simp only [hcp] at h
      cases oC with
      | some e =>
        have hsnd : stC = st' := congrArg Prod.snd h
        subst hsnd
        exact ⟨hcC.trans hcP, Or.inr (hpC.trans hpP)⟩
      | none =>
        cases han : env.analyze ⟨input.text, ls.aiDetectionPercent,
            ls.plagiarismPercent, input.max_ai_percent,
            input.max_plagiarism_percent, input.tone, input.domain_hint⟩ with
        | error e =>
          simp only [han] at h
          have hsnd : stC = st' := congrArg Prod.snd h
          subst hsnd
          exact ⟨hcC.trans hcP, Or.inr (hpC.trans hpP)⟩
        | ok analysis =>
          simp only [han] at h
          rcases hcp2 : callProgress env "Analysis complete" (some 100) stC
            with ⟨oC2, stC2⟩
          obtain ⟨_, _, hcC2, hidC2, hpC2⟩ := callProgress_fields _ _ _ _ _ _ hcp2
          simp only [hcp2] at h
          cases oC2 with
          | some e =>
            have hsnd : stC2 = st' := congrArg Prod.snd h
            subst hsnd
            exact ⟨hcC2.trans (hcC.trans hcP),
              Or.inr (hpC2.trans (hpC.trans hpP))⟩
          | none =>
            have hsnd : stC2 = st' := congrArg Prod.snd h
            subst hsnd
            exact ⟨hcC2.trans (hcC.trans hcP),
              Or.inr (hpC2.trans (hpC.trans hpP))⟩
    | optimize =>
      simp only [hmode] at h
      rcases hcp : callProgress env "Starting optimization loop..." (some 15)
          stP with ⟨oC, stC⟩
      obtain ⟨_, _, hcC, hidC, hpC⟩ := callProgress_fields _ _ _ _ _ _ hcp
      simp only [hcp] at h
      cases oC with
      | some e =>
        have hsnd : stC = st' := congrArg Prod.snd h
        subst hsnd
        exact ⟨hcC.trans hcP, Or.inr (hpC.trans hpP)⟩
      | none =>
        rcases hloop : optimizeLoop env input sess.sessionId
            input.max_iterations 1 input.text ls 0 false hist stC
          with ⟨oL, stL⟩
        obtain ⟨hcL, hidL, hpL⟩ :=
          optimizeLoop_preserves _ _ _ _ _ _ _ _ _ _ _ _ _ hloop
        simp only [hloop] at h
        cases oL with
        | error e =>
          have hsnd : stL = st' := congrArg Prod.snd h
          subst hsnd
          exact ⟨hcL.trans (hcC.trans hcP),
            Or.inr (hpL.trans (hpC.trans hpP))⟩
        | ok payload2 =>
          obtain ⟨ft, fs, iu, rt, hist2⟩ := payload2
          rcases hcp2 : callProgress env "Generating optimization summary..."
              (some 92) stL with ⟨oC2, stC2⟩
          obtain ⟨_, _, hcC2, hidC2, hpC2⟩ := callProgress_fields _ _ _ _ _ _ hcp2
          simp only [hcp2] at h
          cases oC2 with
          | some e =>
            have hsnd : stC2 = st' := congrArg Prod.snd h
            subst hsnd
            exact ⟨hcC2.trans (hcL.trans (hcC.trans hcP)),
              Or.inr (hpC2.trans (hpL.trans (hpC.trans hpP)))⟩
          | none =>
            cases hsum : env.summarize ⟨Mode.optimize, iu, rt, hist2, ft,
                input.max_ai_percent, input.max_plagiarism_percent⟩ with
            | error e =>
              simp only [hsum] at h
              have hsnd : stC2 = st' := congrArg Prod.snd h
              subst hsnd
              exact ⟨hcC2.trans (hcL.trans (hcC.trans hcP)),
                Or.inr (hpC2.trans (hpL.trans (hpC.trans hpP)))⟩
            | ok notes =>
              simp only [hsum] at h
              rcases hcp3 : callProgress env "Optimization complete" (some 100)
                  stC2 with ⟨oC3, stC3⟩
              obtain ⟨_, _, hcC3, hidC3, hpC3⟩ :=
                callProgress_fields _ _ _ _ _ _ hcp3
              simp only [hcp3] at h
              cases oC3 with
              | some e =>
                have hsnd : stC3 = st' := congrArg Prod.snd h
                subst hsnd
                exact ⟨hcC3.trans (hcC2.trans (hcL.trans (hcC.trans hcP))),
                  Or.inr (hpC3.trans (hpC2.trans (hpL.trans
                    (hpC.trans hpP))))⟩
              | none =>
                have hsnd : stC3 = st' := congrArg Prod.snd h
                subst hsnd
                exact ⟨hcC3.trans (hcC2.trans (hcL.trans (hcC.trans hcP))),
                  Or.inr (hpC3.trans (hpC2.trans (hpL.trans
                    (hpC.trans hpP))))⟩

/-- A configuration selecting the Stagehand provider. -/
def cfgW : AppConfig := ⟨"stagehand"⟩

/-- A fully successful environment: provider "stagehand", session
"sess-1", fixed passing scores, pure collaborators, no progress
callback. -/
def envW : Env where
  createProvider := fun _ => .ok "stagehand"
  createSession := fun _ _ => .ok ⟨"sess-1", some "https://live.example"⟩
  scoreText := fun _ _ => .ok ⟨some 5, some 2⟩
  rewrite := fun args => .ok ⟨args.originalText ++ "+", "reworded"⟩
  analyze := fun _ => .ok "analysis"
  summarize := fun _ => .ok "summary"
  closeSession := fun _ => .ok ()
  onProgress := none

/-- A score-only input with default thresholds `10 / 5` and cap `5`. -/
def inputScoreOnly : GrammarlyOptimizeInput :=
  ⟨"Original text", Mode.score_only, 10, 5, 5, "neutral", none, none, none,
    none⟩

/-- The result of the successful score-only run of `envW`. -/
def resScoreOnly : GrammarlyOptimizeResult :=
  ⟨"Original text", some 5, some 2, 0, true,
    [⟨0, some 5, some 2,
      "Baseline Grammarly scores on original text (iteration 0)."⟩],
    "Score-only run: original text already meets configured AI and plagiarism thresholds.",
    some "https://live.example", "stagehand"⟩

/-- The trace of the successful score-only run of `envW`. -/
def traceScoreOnly : TraceState :=
  ⟨[], [], [⟨"sess-1", "Original text", ⟨none, 0, Mode.score_only, true⟩⟩],
    ["sess-1"], some "sess-1", true⟩

/-- The score-only run of `envW` evaluates as expected. -/
theorem run_envW_scoreOnly :
    runGrammarlyOptimization envW cfgW inputScoreOnly =
      (Except.ok resScoreOnly, traceScoreOnly) := by
  decide

/-- An environment whose `createSession` hands back an empty-string
session id and whose scoring always fails. -/
def envEmptySession : Env :=
  { envW with
    createSession := fun _ _ => .ok ⟨"", none⟩
    scoreText := fun _ _ => .error (JSValue.str "score down") }

/-- An environment whose progress callback always rejects. -/
def envThrowingProgress : Env :=
  { envW with
    onProgress := some fun _ _ => .error (JSValue.str "progress boom") }

/-- Core of C8 at the body level: in `score_only` mode the body never
records a rewrite call, and a successful body returns `iterations_used =
0` with the untouched input text. -/
theorem runBody_score_only (env : Env) (appConfig : AppConfig)
    (input : GrammarlyOptimizeInput) (hmode : input.mode = Mode.score_only)
    (outB : Except JSValue GrammarlyOptimizeResult) (stB : TraceState)
    (h : runBody env appConfig input initTrace = (outB, stB)) :
    stB.rewriteCalls = [] ∧
    (∀ r, outB = Except.ok r →
      r.iterations_used = 0 ∧ r.final_text = input.text) := by
  unfold runBody at h
  rcases hpre : runPreamble env appConfig input initTrace with ⟨oP, stP⟩
  cases oP with
  | error e =>
    obtain ⟨hrP, _, _⟩ := runPreamble_error _ _ _ _ _ _ hpre
    simp only [hpre] at h
    have hsnd : stP = stB := congrArg Prod.snd h
    have hfst : (Except.error e : Except JSValue GrammarlyOptimizeResult) =
        outB := congrArg Prod.fst h
    subst hsnd
    refine ⟨hrP, fun r hr => ?_⟩
    rw [← hfst] at hr
    cases hr
  | ok payload =>
    obtain ⟨pn, sess, ls, hist⟩ := payload
    obtain ⟨hhist, hscore, hrP, _, _, _, _⟩ :=
      runPreamble_ok _ _ _ _ _ _ _ _ _ hpre
    simp only [hpre, hmode] at h
    rcases hcp : callProgress env "Scoring complete" (some 100) stP
      with ⟨oC, stC⟩
    obtain ⟨hrC, _, _, _, _⟩ := callProgress_fields _ _ _ _ _ _ hcp
    simp only [hcp] at h
    cases oC with
    | some e =>
      have hsnd : stC = stB := congrArg Prod.snd h
      have hfst : (Except.error e : Except JSValue GrammarlyOptimizeResult) =
          outB := congrArg Prod.fst h
      subst hsnd
      refine ⟨hrC.trans hrP, fun r hr => ?_⟩
      rw [← hfst] at hr
      cases hr
    | none =>
      have hsnd : stC = stB := congrArg Prod.snd h
      subst hsnd
      refine ⟨hrC.trans hrP, fun r hr => ?_⟩
      rw [hr] at h
      have hlr := Except.ok.inj (congrArg Prod.fst h)
      subst hlr
      exact ⟨rfl, rfl⟩

/-- C8: for every input in `score_only` mode, `runGrammarlyOptimization`
never invokes the rewrite collaborator (on any path), and a successful run
returns `iterations_used = 0` and `final_text` byte-for-byte equal to the
input text. -/
theorem c8_score_only_frame (env : Env) (appConfig : AppConfig)
    (input : GrammarlyOptimizeInput)
    (hmode : input.mode = Mode.score_only) :
    (∀ r st, runGrammarlyOptimization env appConfig input =
        (Except.ok r, st) →
      r.iterations_used = 0 ∧ r.final_text = input.text) ∧
    (∀ out st, runGrammarlyOptimization env appConfig input = (out, st) →
      st.rewriteCalls = []) := by
  rcases hb : runBody env appConfig input initTrace with ⟨outB, stB⟩
  obtain ⟨hrw0, hok⟩ := runBody_score_only env appConfig input hmode outB stB hb
  have hdef := runGrammarly_eq_cleanup env appConfig input
  rw [hb] at hdef
  constructor
  · intro r st h
    rw [h] at hdef
    have hfst : Except.ok r = (runCleanup env outB stB).1 :=
      congrArg Prod.fst hdef
    rw [(runCleanup_spec env outB stB).1] at hfst
    exact hok r hfst.symm
  · intro out st h
    rw [h] at hdef
    have hsnd : st = (runCleanup env outB stB).2 := congrArg Prod.snd hdef
    rw [hsnd, (runCleanup_spec env outB stB).2.1]
    exact hrw0

/-- C8 witness: the concrete score-only run of `envW`. -/
theorem c8_witness :
    resScoreOnly.iterations_used = 0 ∧
    resScoreOnly.final_text = inputScoreOnly.text ∧
    traceScoreOnly.rewriteCalls = [] := by
  have h := c8_score_only_frame envW cfgW inputScoreOnly rfl
  obtain ⟨h1, h2⟩ := h.1 resScoreOnly traceScoreOnly run_envW_scoreOnly
  exact ⟨h1, h2, h.2 (Except.ok resScoreOnly) traceScoreOnly
    run_envW_scoreOnly⟩

/-- Core of C9 at the body level: a successful body yields a history whose
first record is the baseline (index 0, baseline note, the baseline
withRetry scores) and whose iteration indices are exactly
`0, 1, 2, …`. -/
theorem runBody_ok_history (env : Env) (appConfig : AppConfig)
    (input : GrammarlyOptimizeInput) (st : TraceState)
    (r : GrammarlyOptimizeResult) (stB : TraceState)
    (h : runBody env appConfig input st = (Except.ok r, stB)) :
    ∃ hd tl, r.history = hd :: tl ∧ hd.iteration = 0 ∧
      hd.note = "Baseline Grammarly scores on original text (iteration 0)." ∧
      (∃ sid, (withRetry
        (fun attempt => env.scoreText (baselineScoreCall input sid) attempt)
        2 2000).result =
          Except.ok ⟨hd.ai_detection_percent, hd.plagiarism_percent⟩) ∧
      List.map HistoryEntry.iteration (hd :: tl) =
        List.range (hd :: tl).length := by
  unfold runBody at h
  rcases hpre : runPreamble env appConfig input st with ⟨oP, stP⟩
  cases oP with
  | error e => simp only [hpre] at h; simp at h
  | ok payload =>
    obtain ⟨pn, sess, ls, hist⟩ := payload
    obtain ⟨hhist, hscore, _, _, _, _, _⟩ :=
      runPreamble_ok _ _ _ _ _ _ _ _ _ hpre
    simp only [hpre] at h
    cases hmode : input.mode with
    | score_only =>
      simp only [hmode] at h
      rcases hcp : callProgress env "Scoring complete" (some 100) stP
        with ⟨oC, stC⟩
      simp only [hcp] at h
      cases oC with
      | some e => simp at h
      | none =>
        have hlr := Except.ok.inj (congrArg Prod.fst h)
        subst hlr
        exact ⟨⟨0, ls.aiDetectionPercent, ls.plagiarismPercent,
          "Baseline Grammarly scores on original text (iteration 0)."⟩, [],
          hhist, rfl, rfl, ⟨sess.sessionId, hscore⟩, rfl⟩
    | analyze =>
      simp only [hmode] at h
      rcases hcp : callProgress env "Analyzing text with Claude..." (some 50)
          stP with ⟨oC, stC⟩
      simp only [hcp] at h
      cases oC with
      | some e => simp at h
      | none =>
        cases han : env.analyze ⟨input.text, ls.aiDetectionPercent,
            ls.plagiarismPercent, input.max_ai_percent,
            input.max_plagiarism_percent, input.tone, input.domain_hint⟩ with
        | error e => simp only [han] at h; simp at h
        | ok analysis =>
          simp only [han] at h
          rcases hcp2 : callProgress env "Analysis complete" (some 100) stC
            with ⟨oC2, stC2⟩
          simp only [hcp2] at h
          cases oC2 with
          | some e => simp at h
          | none =>
            have hlr := Except.ok.inj (congrArg Prod.fst h)
            subst hlr
            exact ⟨⟨0, ls.aiDetectionPercent, ls.plagiarismPercent,
              "Baseline Grammarly scores on original text (iteration 0)."⟩,
              [], hhist, rfl, rfl, ⟨sess.sessionId, hscore⟩, rfl⟩
    | optimize =>
      simp only [hmode] at h
      rcases hcp : callProgress env "Starting optimization loop..." (some 15)
          stP with ⟨oC, stC⟩
      simp only [hcp] at h
      cases oC with
      | some e => simp at h
      | none =>
        rcases hloop : optimizeLoop env input sess.sessionId
            input.max_iterations 1 input.text ls 0 false hist stC
          with ⟨oL, stL⟩
        simp only [hloop] at h
        cases oL with
        | error e => simp at h
        | ok payload2 =>
          obtain ⟨ft, fs, iu, rt, hist2⟩ := payload2
          obtain ⟨ext, hext, hmap⟩ :=
            optimizeLoop_history _ _ _ _ _ _ _ _ _ _ _ _ _ _ _ _ _ hloop
          rcases hcp2 : callProgress env "Generating optimization summary..."
              (some 92) stL with ⟨oC2, stC2⟩
          simp only [hcp2] at h
          cases oC2 with
          | some e => simp at h
          | none =>
            cases hsum : env.summarize ⟨Mode.optimize, iu, rt, hist2, ft,
                input.max_ai_percent, input.max_plagiarism_percent⟩ with
            | error e => simp only [hsum] at h; simp at h
            | ok notes =>
              simp only [hsum] at h
              rcases hcp3 : callProgress env "Optimization complete"
                  (some 100) stC2 with ⟨oC3, stC3⟩
              simp only [hcp3] at h
              cases oC3 with
              | some e => simp at h
              | none =>
                have hlr := Except.ok.inj (congrArg Prod.fst h)
                subst hlr
                subst hhist
                refine ⟨⟨0, ls.aiDetectionPercent, ls.plagiarismPercent,
                  "Baseline Grammarly scores on original text (iteration 0)."⟩,
                  ext, by simpa using hext, rfl, rfl,
                  ⟨sess.sessionId, hscore⟩, ?_⟩
                simp only [List.map_cons, hmap, List.length_cons]
                rw [List.range_eq_range', List.range'_succ]

/-- C9: after every successful run (any mode), the history is non-empty,
its first entry is the baseline record (iteration 0, the baseline scores,
the baseline note), and the iteration indices are exactly `0, 1, 2, …`
with no reordering or deduplication. -/
theorem c9_history_baseline_and_order (env : Env) (appConfig : AppConfig)
    (input : GrammarlyOptimizeInput) (r : GrammarlyOptimizeResult)
    (st : TraceState)
    (h : runGrammarlyOptimization env appConfig input = (Except.ok r, st)) :
    ∃ hd tl, r.history = hd :: tl ∧ hd.iteration = 0 ∧
      hd.note = "Baseline Grammarly scores on original text (iteration 0)." ∧
      (∃ sid, (withRetry
        (fun attempt => env.scoreText (baselineScoreCall input sid) attempt)
        2 2000).result =
          Except.ok ⟨hd.ai_detection_percent, hd.plagiarism_percent⟩) ∧
      List.map HistoryEntry.iteration (hd :: tl) =
        List.range (hd :: tl).length := by
  rcases hb : runBody env appConfig input initTrace with ⟨outB, stB⟩
  have hdef := runGrammarly_eq_cleanup env appConfig input
  rw [hb, h] at hdef
  have hfst : Except.ok r = (runCleanup env outB stB).1 :=
    congrArg Prod.fst hdef
  rw [(runCleanup_spec env outB stB).1] at hfst
  rw [← hfst] at hb
  exact runBody_ok_history env appConfig input initTrace r stB hb

/-- C9 witness: the concrete score-only run of `envW`. -/
theorem c9_witness :
    ∃ hd tl, resScoreOnly.history = hd :: tl ∧ hd.iteration = 0 ∧
      hd.note = "Baseline Grammarly scores on original text (iteration 0)." ∧
      (∃ sid, (withRetry
        (fun attempt =>
          envW.scoreText (baselineScoreCall inputScoreOnly sid) attempt)
        2 2000).result =
          Except.ok ⟨hd.ai_detection_percent, hd.plagiarism_percent⟩) ∧
      List.map HistoryEntry.iteration (hd :: tl) =
        List.range (hd :: tl).length :=
  c9_history_baseline_and_order envW cfgW inputScoreOnly resScoreOnly
    traceScoreOnly run_envW_scoreOnly

/-- C5 counterexample: `createSession` returns the session id `""`; a
later scoring failure exhausts retries and the run rethrows, but because
JavaScript truthiness treats the empty-string session id as falsy,
`closeSession` is never invoked even though a session id was returned. -/
theorem c5_counterexample :
    (runGrammarlyOptimization envEmptySession cfgW inputScoreOnly).2.sessionId =
        some "" ∧
    (runGrammarlyOptimization envEmptySession cfgW inputScoreOnly).2.closeCalls =
        [] ∧
    (runGrammarlyOptimization envEmptySession cfgW inputScoreOnly).1 =
        Except.error (JSValue.str "score down") := by
  exact ⟨rfl, rfl, rfl⟩

/-- C5 (amended): on every path - success or rethrow - the run's outcome
is exactly the body's outcome (teardown can never alter it, and a
`closeSession` failure is swallowed since the oracle's outcome is
discarded), and whenever a session with a truthy (non-empty) id was
acquired, `closeSession` is invoked with exactly that id. -/
theorem c5_session_cleanup (env : Env) (appConfig : AppConfig)
    (input : GrammarlyOptimizeInput)
    (out : Except JSValue GrammarlyOptimizeResult) (st : TraceState)
    (h : runGrammarlyOptimization env appConfig input = (out, st)) :
    out = (runBody env appConfig input initTrace).1 ∧
    (∀ sid, st.sessionId = some sid → sid ≠ "" → st.closeCalls = [sid]) := by
  rcases hb : runBody env appConfig input initTrace with ⟨outB, stB⟩
  obtain ⟨hcB, hdisj⟩ := runBody_fields env appConfig input initTrace outB stB hb
  have hdef := runGrammarly_eq_cleanup env appConfig input
  rw [hb, h] at hdef
  have hfst : out = (runCleanup env outB stB).1 := congrArg Prod.fst hdef
  have hsnd : st = (runCleanup env outB stB).2 := congrArg Prod.snd hdef
  constructor
  · rw [hfst, (runCleanup_spec env outB stB).1]
  · intro sid hsid hne
    have hsidB : stB.sessionId = some sid := by
      rw [hsnd, (runCleanup_spec env outB stB).2.2.2.2.1] at hsid
      exact hsid
    have hpcB : stB.providerCreated = true := by
      rcases hdisj with ⟨hid0, _⟩ | hpc
      · rw [hsidB] at hid0
        cases hid0
      · exact hpc
    rw [hsnd, runCleanup_close env outB stB sid hsidB hpcB hne, hcB]
    rfl

/-- C5 witness: on the successful run of `envW` the acquired session
"sess-1" is closed. -/
theorem c5_witness :
    (runGrammarlyOptimization envW cfgW inputScoreOnly).2.closeCalls =
      ["sess-1"] :=
  (c5_session_cleanup envW cfgW inputScoreOnly
      (runGrammarlyOptimization envW cfgW inputScoreOnly).1
      (runGrammarlyOptimization envW cfgW inputScoreOnly).2 rfl).2
    "sess-1" (by rw [run_envW_scoreOnly]; rfl) (by decide)

/-- C1 counterexample: with every collaborator succeeding but the progress
callback rejecting, the run does not complete with its normal result - it
rejects with the callback's own error - while the identical environment
with no callback succeeds.  So a progress-callback failure is not
swallowed by `runGrammarlyOptimization`. -/
theorem c1_counterexample :
    (runGrammarlyOptimization envThrowingProgress cfgW inputScoreOnly).1 =
        Except.error (JSValue.str "progress boom") ∧
    (runGrammarlyOptimization envW cfgW inputScoreOnly).1 =
        Except.ok resScoreOnly := by
  exact ⟨rfl, by rw [run_envW_scoreOnly]⟩

/-- C1 (amended): `runGrammarlyOptimization` awaits the progress callback
directly and does not catch its failures; a callback that rejects (here:
on every invocation, so in particular at the first checkpoint) aborts the
run with the callback's error before any session is created, with only
that one progress call recorded.  (The swallowing of notification
failures happens inside the callback the MCP server constructs, not in
the orchestrator.) -/
theorem c1_progress_failure_aborts (env : Env) (appConfig : AppConfig)
    (input : GrammarlyOptimizeInput)
    (f : String → Option ℚ → Except JSValue Unit) (e : JSValue)
    (hcb : env.onProgress = some f)
    (hfail : ∀ m p, f m p = Except.error e) :
    runGrammarlyOptimization env appConfig input =
      (Except.error e,
        ⟨[(creatingSessionMessage appConfig, some 5)], [], [], [], none,
          false⟩) := by
  have hcp : callProgress env (creatingSessionMessage appConfig) (some 5)
      initTrace =
      (some e, recProgressCall (creatingSessionMessage appConfig) (some 5)
        initTrace) := by
    simp [callProgress, hcb, hfail]
  have hpre : runPreamble env appConfig input initTrace =
      (Except.error e, recProgressCall (creatingSessionMessage appConfig)
        (some 5) initTrace) := by
    simp only [runPreamble, hcp]
  have hbody : runBody env appConfig input initTrace =
      (Except.error e, recProgressCall (creatingSessionMessage appConfig)
        (some 5) initTrace) := by
    simp only [runBody, hpre]
  rw [runGrammarly_eq_cleanup env appConfig input, hbody]
  simp [runCleanup, recProgressCall, initTrace]

/-- C1 witness: the amended behaviour at the concrete throwing
callback. -/
theorem c1_witness :
    runGrammarlyOptimization envThrowingProgress cfgW inputScoreOnly =
      (Except.error (JSValue.str "progress boom"),
        ⟨[(creatingSessionMessage cfgW, some 5)], [], [], [], none,
          false⟩) :=
  c1_progress_failure_aborts envThrowingProgress cfgW inputScoreOnly
    (fun _ _ => Except.error (JSValue.str "progress boom"))
    (JSValue.str "progress boom") rfl (fun _ _ => rfl)

/-- At the top call of the loop (pass 1, full fuel) the exit index is the
first passing pass if any, otherwise `maxIter`. -/
theorem loopExitIndex_top (pred : Nat → Bool) (maxIter : Nat) :
    loopExitIndex pred maxIter 1 =
      (firstPassingIteration pred maxIter).getD maxIter := by
  unfold loopExitIndex firstPassingIteration
  cases firstPassingAux pred 1 maxIter <;> simp

/-- Properties of the top-level loop exit: the exit index is in
`[1, maxIter]`, it either passes the thresholds or is the cap, no earlier
pass passes, and the exit flag equals the predicate at the exit index. -/
theorem loopExit_top_spec (pred : Nat → Bool) (maxIter : Nat)
    (hmax : 1 ≤ maxIter) :
    1 ≤ loopExitIndex pred maxIter 1 ∧
    loopExitIndex pred maxIter 1 ≤ maxIter ∧
    (pred (loopExitIndex pred maxIter 1) = true ∨
      loopExitIndex pred maxIter 1 = maxIter) ∧
    (∀ j, 1 ≤ j → j < loopExitIndex pred maxIter 1 → pred j = false) ∧
    loopExitMet pred maxIter 1 false = pred (loopExitIndex pred maxIter 1) := by
  unfold loopExitIndex loopExitMet
  cases h : firstPassingAux pred 1 maxIter with
  | some k =>
    obtain ⟨h1, h2, h3, h4⟩ := firstPassingAux_some_spec pred maxIter 1 k h
    simp only [Option.getD_some]
    exact ⟨h1, by omega, Or.inl h3, fun j hj1 hj2 => h4 j hj1 hj2, h3.symm⟩
  | none =>
    have hall := firstPassingAux_none_spec pred maxIter 1 h
    have hmax0 : ¬ maxIter = 0 := by omega
    simp only [Option.getD_none]
    refine ⟨by omega, by omega, Or.inr (by omega),
      fun j hj1 hj2 => hall j hj1 (by omega), ?_⟩
    rw [if_neg hmax0]
    exact (hall (1 - 1 + maxIter) (by omega) (by omega)).symm

/-- Cleanup only reshapes the state: the outcome passes through. -/
theorem runCleanup_pair (env : Env)
    (r : Except JSValue GrammarlyOptimizeResult) (st : TraceState) :
    runCleanup env r st = (r, (runCleanup env r st).2) := by
  rcases h : runCleanup env r st with ⟨a, b⟩
  have h1 : a = r := by
    have h2 := (runCleanup_spec env r st).1
    rw [h] at h2
    exact h2
  subst h1
  rfl

/-- C3: in optimize mode with succeeding collaborators, each loop pass
feeds the rewrite collaborator the current text and the most recent
scores, replaces the current text with the rewrite result, re-scores it
tagged with the pass number, and appends a history record with that
pass's scores and the rewrite rationale; the loop breaks at the first
pass meeting the thresholds, `iterations_used` is that pass's index
(otherwise `max_iterations`), and `final_text` is the output of the last
rewrite performed. -/
theorem c3_optimize_loop_behavior (env : Env) (appConfig : AppConfig)
    (input : GrammarlyOptimizeInput) (pn : String) (sess : SessionResult)
    (rw : RewriteArgs → RewriteResult)
    (sc : ScoreCall → GrammarlyScoreResult) (sm : SummaryArgs → String)
    (hmode : input.mode = Mode.optimize)
    (hmax : 1 ≤ input.max_iterations)
    (hpo : progressOk env)
    (hprov : env.createProvider 0 = Except.ok pn)
    (hsess : env.createSession ⟨input.proxy_country_code⟩ 0 = Except.ok sess)
    (hrw : ∀ args, env.rewrite args = Except.ok (rw args))
    (hsc : ∀ call, env.scoreText call 0 = Except.ok (sc call))
    (hsm : ∀ args, env.summarize args = Except.ok (sm args)) :
    ∃ r st,
      runGrammarlyOptimization env appConfig input = (Except.ok r, st) ∧
      r.iterations_used =
        (firstPassingIteration (optPred input rw sc sess.sessionId)
          input.max_iterations).getD input.max_iterations ∧
      1 ≤ r.iterations_used ∧
      r.iterations_used ≤ input.max_iterations ∧
      (optPred input rw sc sess.sessionId r.iterations_used = true ∨
        r.iterations_used = input.max_iterations) ∧
      (∀ j, 1 ≤ j → j < r.iterations_used →
        optPred input rw sc sess.sessionId j = false) ∧
      r.thresholds_met =
        optPred input rw sc sess.sessionId r.iterations_used ∧
      r.final_text = optTexts input rw sc sess.sessionId r.iterations_used ∧
      r.final_text =
        (rw (optRewriteArgs input rw sc sess.sessionId
          r.iterations_used)).rewrittenText ∧
      r.history =
        ⟨0, (optScores input rw sc sess.sessionId 0).aiDetectionPercent,
          (optScores input rw sc sess.sessionId 0).plagiarismPercent,
          "Baseline Grammarly scores on original text (iteration 0)."⟩ ::
          (List.range' 1 r.iterations_used).map
            (optHistEntry input rw sc sess.sessionId) ∧
      st.rewriteCalls =
        (List.range' 1 r.iterations_used).map
          (optRewriteArgs input rw sc sess.sessionId) ∧
      st.scoreCalls =
        baselineScoreCall input sess.sessionId ::
          (List.range' 1 r.iterations_used).map
            (fun j => mkLoopScoreCall sess.sessionId input j
              (optTexts input rw sc sess.sessionId j)) := by
  obtain ⟨stP, hpre, hrP, hcP, hsP, hidP, hpP⟩ :=
    runPreamble_success env appConfig input initTrace pn sess sc hpo hprov
      hsess hsc
  have hbaseCall : baselineScoreCall input sess.sessionId =
      mkLoopScoreCall sess.sessionId input 0 input.text := by
    simp [baselineScoreCall, mkLoopScoreCall, hmode]
  have hls : sc (baselineScoreCall input sess.sessionId) =
      optScores input rw sc sess.sessionId 0 := by
    rw [hbaseCall]
    rfl
  rw [hls] at hpre
  obtain ⟨st3, hcp3, hr3, hs3, hc3, hid3, hp3⟩ :=
    callProgress_ok env hpo "Starting optimization loop..." (some 15) stP
  obtain ⟨stL, hloopRaw, hRL, hSL, hCL, hIL, hPL⟩ :=
    optimizeLoop_char env input sess.sessionId rw sc hpo hrw hsc
      input.max_iterations 1 false
      [⟨0, (optScores input rw sc sess.sessionId 0).aiDetectionPercent,
          (optScores input rw sc sess.sessionId 0).plagiarismPercent,
          "Baseline Grammarly scores on original text (iteration 0)."⟩]
      st3 (le_refl 1)
  have hloop : optimizeLoop env input sess.sessionId input.max_iterations 1
      input.text (optScores input rw sc sess.sessionId 0) 0 false
      [⟨0, (optScores input rw sc sess.sessionId 0).aiDetectionPercent,
          (optScores input rw sc sess.sessionId 0).plagiarismPercent,
          "Baseline Grammarly scores on original text (iteration 0)."⟩]
      st3 = _ := hloopRaw
  obtain ⟨st4, hcp92, hr92, hs92, hc92, hid92, hp92⟩ :=
    callProgress_ok env hpo "Generating optimization summary..." (some 92) stL
  obtain ⟨st5, hcp100, hr100, hs100, hc100, hid100, hp100⟩ :=
    callProgress_ok env hpo "Optimization complete" (some 100) st4
  have hbody : runBody env appConfig input initTrace =
      (Except.ok (GrammarlyOptimizeResult.mk
        (optTexts input rw sc sess.sessionId (loopExitIndex (optPred input rw sc sess.sessionId) input.max_iterations 1))
        (optScores input rw sc sess.sessionId (loopExitIndex (optPred input rw sc sess.sessionId) input.max_iterations 1)).aiDetectionPercent
        (optScores input rw sc sess.sessionId (loopExitIndex (optPred input rw sc sess.sessionId) input.max_iterations 1)).plagiarismPercent
        (loopExitIndex (optPred input rw sc sess.sessionId) input.max_iterations 1)
        (loopExitMet (optPred input rw sc sess.sessionId)
          input.max_iterations 1 false)
        ([⟨0, (optScores input rw sc sess.sessionId 0).aiDetectionPercent,
          (optScores input rw sc sess.sessionId 0).plagiarismPercent,
          "Baseline Grammarly scores on original text (iteration 0)."⟩] ++
        (List.range' 1 ((loopExitIndex (optPred input rw sc sess.sessionId) input.max_iterations 1) + 1 - 1)).map
          (optHistEntry input rw sc sess.sessionId))
        (sm ⟨Mode.optimize, (loopExitIndex (optPred input rw sc sess.sessionId) input.max_iterations 1),
          loopExitMet (optPred input rw sc sess.sessionId)
            input.max_iterations 1 false,
          ([⟨0, (optScores input rw sc sess.sessionId 0).aiDetectionPercent,
          (optScores input rw sc sess.sessionId 0).plagiarismPercent,
          "Baseline Grammarly scores on original text (iteration 0)."⟩] ++
        (List.range' 1 ((loopExitIndex (optPred input rw sc sess.sessionId) input.max_iterations 1) + 1 - 1)).map
          (optHistEntry input rw sc sess.sessionId)),
          optTexts input rw sc sess.sessionId (loopExitIndex (optPred input rw sc sess.sessionId) input.max_iterations 1),
          input.max_ai_percent, input.max_plagiarism_percent⟩)
        sess.liveUrl pn), st5) := by
    simp only [runBody, hpre, hmode, hcp3, hloop, hsm, hcp92, hcp100]
  obtain ⟨hK1, hK2, hK3, hK4, hK5⟩ :=
    loopExit_top_spec (optPred input rw sc sess.sessionId)
      input.max_iterations hmax
  have hfinal : runGrammarlyOptimization env appConfig input =
      ((runBody env appConfig input initTrace).1,
        (runCleanup env (runBody env appConfig input initTrace).1
          (runBody env appConfig input initTrace).2).2) := by
    rw [runGrammarly_eq_cleanup env appConfig input]
    exact runCleanup_pair env _ _
  simp only [hbody] at hfinal
  refine ⟨_, _, hfinal, ?_, ?_, ?_, ?_, ?_, ?_, ?_, ?_, ?_, ?_, ?_⟩
  · exact loopExitIndex_top (optPred input rw sc sess.sessionId)
      input.max_iterations
  · exact hK1
  · exact hK2
  · exact hK3
  · exact hK4
  · exact hK5
  · rfl
  · exact optTexts_eq_rewrite input rw sc sess.sessionId (loopExitIndex (optPred input rw sc sess.sessionId) input.max_iterations 1) hK1
  · show ([⟨0, (optScores input rw sc sess.sessionId 0).aiDetectionPercent,
          (optScores input rw sc sess.sessionId 0).plagiarismPercent,
          "Baseline Grammarly scores on original text (iteration 0)."⟩] ++
        (List.range' 1 ((loopExitIndex (optPred input rw sc sess.sessionId) input.max_iterations 1) + 1 - 1)).map
          (optHistEntry input rw sc sess.sessionId)) = _
    simp
  · rw [(runCleanup_spec env _ _).2.1, hr100, hr92, hRL, hr3, hrP]
    simp [initTrace]
  · rw [(runCleanup_spec env _ _).2.2.1, hs100, hs92, hSL, hs3, hsP]
    simp [initTrace]

/-- The concrete rewrite oracle of the optimize example: appends "+". -/
def rwO : RewriteArgs → RewriteResult :=
  fun args => ⟨args.originalText ++ "+", "reworded"⟩

/-- The concrete scoring oracle of the optimize example: baseline scores
50/3, pass 1 scores 25/3, pass 2 and later 8/2 (below thresholds 10/5). -/
def scO : ScoreCall → GrammarlyScoreResult := fun call =>
  if call.options.iteration = 0 then ⟨some 50, some 3⟩
  else if call.options.iteration = 1 then ⟨some 25, some 3⟩
  else ⟨some 8, some 2⟩

/-- The concrete summary oracle of the optimize example. -/
def smO : SummaryArgs → String := fun _ => "summary"

/-- The optimize-mode environment realizing the spec's three-pass
example. -/
def envO : Env where
  createProvider := fun _ => .ok "stagehand"
  createSession := fun _ _ => .ok ⟨"sess-1", some "https://live.example"⟩
  scoreText := fun call _ => .ok (scO call)
  rewrite := fun args => .ok (rwO args)
  analyze := fun _ => .ok "analysis"
  summarize := fun args => .ok (smO args)
  closeSession := fun _ => .ok ()
  onProgress := none

/-- An optimize input with thresholds 10/5 and iteration cap 5. -/
def inputOptimize : GrammarlyOptimizeInput :=
  ⟨"base", Mode.optimize, 10, 5, 5, "neutral", none, none, none, none⟩

/-- C3 witness: in the spec's example the third scoring pass (iteration 2)
meets the thresholds, so the run stops with `iterations_used = 2` and the
final text is the second rewrite's output, without consuming the cap of
5. -/
theorem c3_witness :
    ∃ r st,
      runGrammarlyOptimization envO cfgW inputOptimize = (Except.ok r, st) ∧
      r.iterations_used = 2 ∧ r.final_text = "base++" ∧
      r.thresholds_met = true := by
  obtain ⟨r, st, hrun, hiu, _, _, _, _, hth, hft, _, _, _, _⟩ :=
    c3_optimize_loop_behavior envO cfgW inputOptimize "stagehand"
      ⟨"sess-1", some "https://live.example"⟩ rwO scO smO rfl (by decide)
      (by intro f hf; simp [envO] at hf) rfl rfl (fun _ => rfl)
      (fun _ => rfl) (fun _ => rfl)
  refine ⟨r, st, hrun, ?_, ?_, ?_⟩
  · rw [hiu]
    decide
  · rw [hft, hiu]
    decide
  · rw [hth, hiu]
    decide

/-- C2: For every pair of threshold ceilings (including `{100, 100}`), if
both components of a `ScorePair` are absent, `thresholdsMet` returns
`false`. -/
theorem c2_thresholds_false_when_both_scores_absent
    (maxAiPercent maxPlagiarismPercent : ℚ) :
    thresholdsMet ⟨none, none⟩ maxAiPercent maxPlagiarismPercent = false :=
  rfl

/-- C6: For every `ScorePair` with at least one score present,
`thresholdsMet` is true iff every present score is ≤ its ceiling: an
absent score passes vacuously, a present score equal to its ceiling
passes, and with exactly one present score the result depends only on
that comparison. -/
theorem c6_thresholds_iff_when_score_present
    (scores : GrammarlyScores) (maxAiPercent maxPlagiarismPercent : ℚ)
    (h : scores.aiDetectionPercent ≠ none ∨ scores.plagiarismPercent ≠ none) :
    thresholdsMet scores maxAiPercent maxPlagiarismPercent = true ↔
      ((∀ v, scores.aiDetectionPercent = some v → v ≤ maxAiPercent) ∧
        (∀ v, scores.plagiarismPercent = some v → v ≤ maxPlagiarismPercent)) := by
  obtain ⟨ai, plag⟩ := scores
  cases ai <;> cases plag <;> simp_all [thresholdsMet]

/-- C6 witness: with only the AI score present and equal to `7 ≤ 10`, the
equivalence is realized at a concrete input. -/
theorem c6_witness :
    thresholdsMet ⟨some 7, none⟩ 10 5 = true ↔
      ((∀ v, (GrammarlyScores.mk (some 7) none).aiDetectionPercent = some v →
          v ≤ 10) ∧
        (∀ v, (GrammarlyScores.mk (some 7) none).plagiarismPercent = some v →
          v ≤ 5)) :=
  c6_thresholds_iff_when_score_present ⟨some 7, none⟩ 10 5 (Or.inl (by simp))

/-- C7: With `maxRetries = n` and an operation failing on its first `n`
calls and succeeding on call `n + 1`, `withRetry` invokes the operation
exactly `n + 1` times, returns the successful result, and the backoff
delay before retry `attempt + 1` is `backoffMs * 2 ^ attempt`, doubling
each attempt starting from `backoffMs`. -/
theorem c7_with_retry_eventual_success {α : Type}
    (op : Nat → Except JSValue α) (n : Nat) (backoffMs : ℚ) (v : α)
    (hfail : ∀ i, i < n → ∃ e, op i = Except.error e)
    (hok : op n = Except.ok v) :
    withRetry op n backoffMs =
      ⟨Except.ok v, n + 1, (List.range n).map fun i => backoffMs * 2 ^ i⟩ := by
  have h := withRetryGo_eventual_ok op backoffMs v n 0
    (fun i hi => by simpa using hfail i hi) (by simpa using hok)
  simpa [withRetry] using h

/-- C7 witness: an operation failing twice then succeeding, with
`maxRetries = 2` and `backoffMs = 100`: three invocations and delays
`[100, 200]`. -/
theorem c7_witness :
    withRetry
        (fun i => if i < 2 then Except.error (JSValue.str "transient")
          else Except.ok (7 : Nat)) 2 100 =
      ⟨Except.ok 7, 3, [100, 200]⟩ := by
  have h := c7_with_retry_eventual_success
    (fun i => if i < 2 then Except.error (JSValue.str "transient")
      else Except.ok (7 : Nat)) 2 100 7
    (fun i hi => ⟨JSValue.str "transient", by simp [hi]⟩) (by simp)
  refine h.trans ?_
  rw [RetryTrace.mk.injEq]
  refine ⟨rfl, rfl, ?_⟩
  norm_num [List.range_succ]

/-- C4 counterexample: with the thrown value `undefined` on the only
attempt, the rethrown value is not the thrown value: `withRetry` replaces
it with a fresh `Error`.  So the claim "the last thrown value is re-raised
unmodified … for every thrown value" fails at the thrown value
`undefined`. -/
theorem c4_counterexample :
    (withRetry (fun _ => (Except.error JSValue.undefined : Except JSValue Nat))
        0 100).result ≠ Except.error JSValue.undefined := by
  decide

/-- C4 (amended): whenever all `maxRetries + 1` attempts fail and the value
thrown by the last attempt is not `undefined`, that last thrown value is
re-raised unmodified, preserving whatever value and type was thrown
(including non-`Error` throws such as a plain string). -/
theorem c4_with_retry_rethrows_last_error {α : Type}
    (op : Nat → Except JSValue α) (n : Nat) (backoffMs : ℚ) (e : JSValue)
    (hfail : ∀ i, i < n → ∃ e', op i = Except.error e')
    (hlast : op n = Except.error e) (hne : e ≠ JSValue.undefined) :
    (withRetry op n backoffMs).result = Except.error e := by
  have h := withRetryGo_all_fail op backoffMs n 0 e
    (fun i hi => by simpa using hfail i hi) (by simpa using hlast)
  rw [withRetry] at *
  rw [h, retryFinal, if_neg hne]

/-- C4 witness: a plain-string throw (`"boom"`) on every one of the two
attempts is re-raised unchanged. -/
theorem c4_witness :
    (withRetry
        (fun _ => (Except.error (JSValue.str "boom") : Except JSValue Nat))
        1 50).result = Except.error (JSValue.str "boom") :=
  c4_with_retry_rethrows_last_error
    (fun _ => (Except.error (JSValue.str "boom") : Except JSValue Nat)) 1 50
    (JSValue.str "boom") (fun i _ => ⟨JSValue.str "boom", rfl⟩) rfl
    (by decide)

/-- C10: if the wrapped operation rejects with the value `undefined` on
every attempt, `withRetry` does not re-raise `undefined`: it throws a
newly constructed `Error` with message "withRetry failed without error". -/
theorem c10_with_retry_undefined_becomes_error {α : Type}
    (op : Nat → Except JSValue α) (n : Nat) (backoffMs : ℚ)
    (h : ∀ i, op i = Except.error JSValue.undefined) :
    (withRetry op n backoffMs).result =
      Except.error (JSValue.errorObj "withRetry failed without error") := by
  have hgo := withRetryGo_all_fail op backoffMs n 0 JSValue.undefined
    (fun i _ => ⟨JSValue.undefined, h _⟩) (h _)
  rw [withRetry] at *
  rw [hgo]
  rfl

/-- C10 witness: with `maxRetries = 0` and the operation always rejecting
with `undefined`, the result is the fresh `Error`. -/
theorem c10_witness :
    (withRetry (fun _ => (Except.error JSValue.undefined : Except JSValue Nat))
        0 1).result =
      Except.error (JSValue.errorObj "withRetry failed without error") :=
  c10_with_retry_undefined_becomes_error
    (fun _ => (Except.error JSValue.undefined : Except JSValue Nat)) 0 1
    (fun _ => rfl)

end GrammarlyMcp
